import Mathlib

/-!
Verification of the HDL Workshop Board core (`workshop.py`) against its
natural-language specification.

The development shallowly embeds the Python source: JSON documents become an
inductive `Json` type, Python dict lookup and truthiness are modelled
explicitly, the retry loops of `cin7_get` / `cin7_put` become recursions over
the attempt schedule, `parse_date`'s `strptime` formats become executable
character-list parsers, and the record-processing pipeline of
`fetch_kickplate_orders` / `api_jobs` becomes a pure function from raw
records to processed orders and grouped output.
-/

namespace Workshop

set_option maxRecDepth 16384

/-- JSON values as delivered by the remote API (and Python literals built
from them).  Numbers are modelled as rationals: the numeric values the
claims exercise are exact in both models. -/
inductive Json where
  | null : Json
  | bool (b : Bool) : Json
  | num (q : ℚ) : Json
  | str (s : String) : Json
  | arr (xs : List Json) : Json
  | obj (kvs : List (String × Json)) : Json

/-- Python truthiness of a JSON-shaped value: `None`, `False`, `0`, `""`,
`[]`, `{}` are falsy, everything else truthy. -/
def pyTruthy : Json → Bool
  | Json.null => false
  | Json.bool b => b
  | Json.num q => decide (q ≠ 0)
  | Json.str s => !s.isEmpty
  | Json.arr xs => !xs.isEmpty
  | Json.obj kvs => !kvs.isEmpty

/-- `dict.get(key)`: first binding wins, `none` models Python `None` for an
absent key. -/
def dictGet : List (String × Json) → String → Option Json
  | [], _ => none
  | (k, v) :: rest, key => if k = key then some v else dictGet rest key

/-- Truthiness of an `Option Json` (absent key ⇒ `None` ⇒ falsy). -/
def optTruthy : Option Json → Bool
  | none => false
  | some v => pyTruthy v

/-- Python `a or b` where `a` is a lookup result and `b` a JSON value:
returns `a`'s value when truthy, otherwise `b`. -/
def pyOr (a : Option Json) (b : Json) : Json :=
  match a with
  | some v => if pyTruthy v then v else b
  | none => b

/-- `name[0].lower() + name[1:]` from the source's `gf` helper (the names it
is applied to are nonempty string literals; the empty case is vacuous). -/
def lowerFirst (s : String) : String :=
  match s.toList with
  | [] => ""
  | c :: rest => String.mk (c.toLower :: rest)

/-- The `gf` field helper of `fetch_kickplate_orders` (lines 262-263):
`order.get(name) or order.get(name[0].lower() + name[1:])`.  Python `or`
keeps the first operand only when it is truthy. -/
def gf (order : List (String × Json)) (name : String) : Option Json :=
  let a := dictGet order name
  if optTruthy a then a else dictGet order (lowerFirst name)

-- ==========================================================================
-- Configuration constants (lines 39-53)
-- ==========================================================================

def KICKPLATE_STAGES : List String :=
  ["Kickplate - New", "Kickplate - Processing",
   "Kickplate - Job Complete", "Kickplate - To Collect"]

/-- `KICKPLATE_STAGE_PREFIX` from the source (renamed to keep the
development's identifier conventions uniform). -/
def KICKPLATE_STAGE_NS : String := "Kickplate - "

def DUE_SOON_DAYS : Int := 7

def API_MAX_RETRIES : Nat := 3

def API_RETRY_DELAY : ℚ := 1

-- ==========================================================================
-- C5: field resolution
-- ==========================================================================

/-- C5 counterexample: the claim says that when the PascalCase key is
present its value is returned regardless of the camelCase key.  The code
uses Python `or`, which skips a present-but-falsy PascalCase value: on
`{"Stage": "", "stage": "X"}` resolution of `"Stage"` yields `"X"`,
not `""`. -/
theorem gf_present_key_counterexample :
    gf [("Stage", Json.str ""), ("stage", Json.str "X")] "Stage"
      = some (Json.str "X") ∧
    some (Json.str "X") ≠ some (Json.str "") := by
  constructor
  · rfl
  · simp

/-- C5 amended: field resolution tries the exact (PascalCase) name first and
returns its value when that value is truthy; when the exact name is absent
or its value is falsy, resolution returns the camelCase lookup instead
(first truthy match wins, no merging). -/
theorem gf_resolution (order : List (String × Json)) (name : String) :
    (∀ v, dictGet order name = some v → pyTruthy v = true →
      gf order name = some v) ∧
    (optTruthy (dictGet order name) = false →
      gf order name = dictGet order (lowerFirst name)) := by
  constructor
  · intro v hv ht
    simp [gf, hv, optTruthy, ht]
  · intro hf
    simp [gf, hf]

/-- Witness for `gf_resolution` at a concrete record. -/
theorem gf_resolution_witness :
    gf [("Stage", Json.str "Kickplate - New")] "Stage"
      = some (Json.str "Kickplate - New") :=
  (gf_resolution [("Stage", Json.str "Kickplate - New")] "Stage").1
    (Json.str "Kickplate - New") rfl rfl

-- ==========================================================================
-- Resilient fetcher: cin7_get (lines 109-140) and cin7_put (lines 143-190)
-- ==========================================================================

/-- Outcome of one HTTP GET request issued by `cin7_get`.  `http code body
text` is a completed response (for a 200 the decoded JSON body is `body`;
the model assumes a 200 body decodes, which every claim's input satisfies);
the other constructors are the exception paths the source catches. -/
inductive GetResp where
  | http (code : Nat) (body : Json) (text : String) : GetResp
  | timeout : GetResp
  | connError : GetResp
  | reqExc (msg : String) : GetResp

/-- Observable run of a `cin7_get` call: final result, the sleeps issued in
order, the number of requests actually made, and the final `last_error`. -/
structure GetRun where
  result : Option Json
  sleeps : List ℚ
  attempts : Nat
  lastError : Option String

/-- The retry loop of `cin7_get` over the remaining attempt indices.  On a
200 the body is returned; on a 429 the loop sleeps
`API_RETRY_DELAY * (attempt + 1) * 2` and continues; on any other status or
exception it records `last_error` and, if `attempt < API_MAX_RETRIES - 1`,
sleeps `API_RETRY_DELAY * (attempt + 1)` before the next attempt. -/
def cin7GetLoop (resp : Nat → GetResp) : List Nat → Option String → GetRun
  | [], le => ⟨none, [], 0, le⟩
  | a :: rest, le =>
    match resp a with
    | GetResp.http code body text =>
      if code = 200 then ⟨some body, [], 1, le⟩
      else if code = 429 then
        let r := cin7GetLoop resp rest le
        ⟨r.result, API_RETRY_DELAY * (a + 1) * 2 :: r.sleeps, r.attempts + 1,
          r.lastError⟩
      else
        let le' := some ("HTTP " ++ toString code ++ ": " ++ text.take 300)
        let pre : List ℚ :=
          if a < API_MAX_RETRIES - 1 then [API_RETRY_DELAY * (a + 1)] else []
        let r := cin7GetLoop resp rest le'
        ⟨r.result, pre ++ r.sleeps, r.attempts + 1, r.lastError⟩
    | GetResp.timeout =>
        let pre : List ℚ :=
          if a < API_MAX_RETRIES - 1 then [API_RETRY_DELAY * (a + 1)] else []
        let r := cin7GetLoop resp rest (some "Request timed out")
        ⟨r.result, pre ++ r.sleeps, r.attempts + 1, r.lastError⟩
    | GetResp.connError =>
        let pre : List ℚ :=
          if a < API_MAX_RETRIES - 1 then [API_RETRY_DELAY * (a + 1)] else []
        let r := cin7GetLoop resp rest (some "Connection error")
        ⟨r.result, pre ++ r.sleeps, r.attempts + 1, r.lastError⟩
    | GetResp.reqExc m =>
        let pre : List ℚ :=
          if a < API_MAX_RETRIES - 1 then [API_RETRY_DELAY * (a + 1)] else []
        let r := cin7GetLoop resp rest (some m)
        ⟨r.result, pre ++ r.sleeps, r.attempts + 1, r.lastError⟩

/-- `cin7_get`: run the attempt loop for attempts `0, 1, 2`. -/
def cin7Get (resp : Nat → GetResp) : GetRun :=
  cin7GetLoop resp (List.range API_MAX_RETRIES) none

/-- Outcome of one HTTP PUT request.  The decoded body is `none` when
`resp.json()` raises (caught as `ValueError` by the source). -/
inductive PutResp where
  | http (code : Nat) (body : Option Json) (text : String) : PutResp
  | reqExc (msg : String) : PutResp

/-- Result of `cin7_put`: the returned dict, or an uncaught Python
exception escaping the function. -/
inductive PutResult where
  | ok : PutResult
  | fail (err : Option String) : PutResult
  | raised (msg : String) : PutResult
deriving DecidableEq

/-- Extract a Python `str` operand for `join`. -/
def asStr : Json → Option String
  | Json.str s => some s
  | _ => none

/-- Extract all `str` operands of a join, failing on any other element. -/
def allStr : List Json → Option (List String)
  | [] => some []
  | x :: xs =>
    match asStr x, allStr xs with
    | some s, some ss => some (s :: ss)
    | _, _ => none

/-- Model of `"; ".join(errors)`: joins a list of strings; joining a string
iterates its characters; joining a dict iterates its keys; any other
operand (or a list with a non-string element) raises `TypeError`. -/
def joinErrors : Json → Except String String
  | Json.str s => Except.ok (String.intercalate "; " (s.toList.map (String.mk [·])))
  | Json.arr xs =>
    match allStr xs with
    | some ss => Except.ok (String.intercalate "; " ss)
    | none => Except.error "TypeError"
  | Json.obj kvs => Except.ok (String.intercalate "; " (kvs.map Prod.fst))
  | _ => Except.error "TypeError"

/-- The 2xx body inspection of `cin7_put` (lines 164-176).  A body that is a
nonempty list whose first element is a dict with `success` literally `False`
yields a logical failure carrying the joined `errors` (or the fixed fallback
when `errors` is falsy); a body that is not a nonempty list (or failed to
decode) falls through to success; a nonempty list whose first element is not
a dict raises `AttributeError`, which the `except (ValueError, KeyError)`
clause does not catch. -/
def inspect2xx : Option Json → PutResult
  | none => PutResult.ok
  | some j =>
    match j with
    | Json.arr (item :: _) =>
      match item with
      | Json.obj kvs =>
        match dictGet kvs "success" with
        | some (Json.bool false) =>
          let errors := (dictGet kvs "errors").getD (Json.arr [])
          if pyTruthy errors then
            match joinErrors errors with
            | Except.ok s => PutResult.fail (some s)
            | Except.error m => PutResult.raised m
          else PutResult.fail (some "Cin7 reported failure")
        | _ => PutResult.ok
      | _ => PutResult.raised "AttributeError"
    | _ => PutResult.ok

/-- Observable run of a `cin7_put` call. -/
structure PutRun where
  result : PutResult
  sleeps : List ℚ
  attempts : Nat
deriving DecidableEq

/-- The retry loop of `cin7_put` (lines 154-190): 200/201/204 trigger the
body inspection (an inspection verdict returns immediately, never retried);
429 sleeps `API_RETRY_DELAY * (attempt + 1) * 2` and continues; other
statuses and request exceptions record `last_error` and take the common
backoff path. -/
def cin7PutLoop (resp : Nat → PutResp) : List Nat → Option String → PutRun
  | [], le => ⟨PutResult.fail le, [], 0⟩
  | a :: rest, le =>
    match resp a with
    | PutResp.http code body text =>
      if code = 200 ∨ code = 201 ∨ code = 204 then
        ⟨inspect2xx body, [], 1⟩
      else if code = 429 then
        let r := cin7PutLoop resp rest le
        ⟨r.result, API_RETRY_DELAY * (a + 1) * 2 :: r.sleeps, r.attempts + 1⟩
      else
        let le' := some ("HTTP " ++ toString code ++ ": " ++ text.take 300)
        let pre : List ℚ :=
          if a < API_MAX_RETRIES - 1 then [API_RETRY_DELAY * (a + 1)] else []
        let r := cin7PutLoop resp rest le'
        ⟨r.result, pre ++ r.sleeps, r.attempts + 1⟩
    | PutResp.reqExc m =>
        let pre : List ℚ :=
          if a < API_MAX_RETRIES - 1 then [API_RETRY_DELAY * (a + 1)] else []
        let r := cin7PutLoop resp rest (some m)
        ⟨r.result, pre ++ r.sleeps, r.attempts + 1⟩

/-- `cin7_put`: payload wrapping (line 152) is captured separately by
`putPayload`; the loop runs attempts `0, 1, 2`. -/
def cin7Put (resp : Nat → PutResp) : PutRun :=
  cin7PutLoop resp (List.range API_MAX_RETRIES) none

/-- `payload = [data] if isinstance(data, dict) else data` (line 152). -/
def putPayload : Json → Json
  | Json.obj kvs => Json.arr [Json.obj kvs]
  | other => other

/-- `update_order_stage` (lines 323-333), observed at the wire: `none` when
stage validation fails before any network call, otherwise the payload
`cin7_put` sends. -/
def updateWirePayload (orderId : Json) (newStage : String) : Option Json :=
  if newStage ∈ KICKPLATE_STAGES then
    some (putPayload (Json.obj [("id", orderId), ("stage", Json.str newStage)]))
  else none

/-- The attempt list of the retry loops. -/
theorem rangeRetries : List.range API_MAX_RETRIES = [0, 1, 2] := rfl

/-- Response schedule delivering three consecutive 429s, then a 200. -/
def get429Sched : Nat → GetResp := fun n =>
  if n < 3 then GetResp.http 429 Json.null "rate limited"
  else GetResp.http 200 (Json.str "ok") ""

/-- PUT response schedule delivering three consecutive 429s, then a 200. -/
def put429Sched : Nat → PutResp := fun n =>
  if n < 3 then PutResp.http 429 none "rate limited"
  else PutResp.http 200 none ""

/-- C1 counterexample: under three consecutive 429 responses followed by a
200, both `cin7_get` and `cin7_put` fail — the loop makes only
`API_MAX_RETRIES = 3` requests in total, sleeping `1*1*2`, `1*2*2`, `1*3*2`
on the three 429s and then exhausting the budget, so the 200 is never
requested and the call does not succeed as the claim states. -/
theorem retry_429_counterexample :
    (cin7Get get429Sched).result = none ∧
    (cin7Get get429Sched).sleeps = [2, 4, 6] ∧
    (cin7Get get429Sched).attempts = 3 ∧
    (cin7Put put429Sched).result = PutResult.fail none ∧
    (cin7Put put429Sched).sleeps = [2, 4, 6] ∧
    (cin7Put put429Sched).attempts = 3 := by
  refine ⟨rfl, ?_, rfl, rfl, ?_, rfl⟩ <;>
    simp [cin7Get, cin7Put, rangeRetries, cin7GetLoop, cin7PutLoop,
      get429Sched, put429Sched, API_RETRY_DELAY] <;> norm_num

/-- C1 amended: for `k < 3` consecutive 429 responses followed by a 200
(for GET and PUT alike), the call succeeds after exactly `k` prior delayed
retries, each 429 at attempt `i` sleeping `API_RETRY_DELAY * (i + 1) * 2`
while the attempt counter advances, and the backoff delays are strictly
increasing; three consecutive 429s instead exhaust the attempt budget and
the call fails (see the counterexample). -/
theorem retry_429_amended (resp : Nat → GetResp) (presp : Nat → PutResp)
    (k : Nat) (hk : k < API_MAX_RETRIES)
    (h429 : ∀ i, i < k → ∃ b t, resp i = GetResp.http 429 b t)
    (p429 : ∀ i, i < k → ∃ b t, presp i = PutResp.http 429 b t)
    (body : Json) (t : String) (hok : resp k = GetResp.http 200 body t)
    (t' : String) (pok : presp k = PutResp.http 200 none t') :
    cin7Get resp =
      ⟨some body, (List.range k).map (fun i => API_RETRY_DELAY * (i + 1) * 2),
        k + 1, none⟩ ∧
    cin7Put presp =
      ⟨PutResult.ok, (List.range k).map (fun i => API_RETRY_DELAY * (i + 1) * 2),
        k + 1⟩ ∧
    List.Chain' (· < ·)
      ((List.range k).map (fun i => API_RETRY_DELAY * (i + 1) * 2)) := by
  have hk3 : k < 3 := hk
  have r0 : (List.range 0 : List ℕ) = [] := rfl
  have r1 : List.range 1 = [0] := rfl
  have r2 : List.range 2 = [0, 1] := rfl
  interval_cases k
  · rw [r0]
    refine ⟨?_, ?_, by simp⟩
    · simp [cin7Get, rangeRetries, cin7GetLoop, hok]
    · simp [cin7Put, rangeRetries, cin7PutLoop, pok, inspect2xx]
  · obtain ⟨b0, t0, h0⟩ := h429 0 (by norm_num)
    obtain ⟨pb0, pt0, hp0⟩ := p429 0 (by norm_num)
    rw [r1]
    refine ⟨?_, ?_, by simp⟩
    · simp [cin7Get, rangeRetries, cin7GetLoop, h0, hok]
    · simp [cin7Put, rangeRetries, cin7PutLoop, hp0, pok, inspect2xx]
  · obtain ⟨b0, t0, h0⟩ := h429 0 (by norm_num)
    obtain ⟨b1, t1, h1⟩ := h429 1 (by norm_num)
    obtain ⟨pb0, pt0, hp0⟩ := p429 0 (by norm_num)
    obtain ⟨pb1, pt1, hp1⟩ := p429 1 (by norm_num)
    rw [r2]
    refine ⟨?_, ?_, ?_⟩
    · simp [cin7Get, rangeRetries, cin7GetLoop, h0, h1, hok]
    · simp [cin7Put, rangeRetries, cin7PutLoop, hp0, hp1, pok, inspect2xx]
    · norm_num [API_RETRY_DELAY, List.chain'_cons]

/-- Response schedule with two 429s, then a 200. -/
def get429AmendedSched : Nat → GetResp := fun n =>
  if n < 2 then GetResp.http 429 Json.null "rate limited"
  else GetResp.http 200 (Json.str "ok") ""

/-- PUT response schedule with two 429s, then a 200. -/
def put429AmendedSched : Nat → PutResp := fun n =>
  if n < 2 then PutResp.http 429 none "rate limited"
  else PutResp.http 200 none ""

/-- Witness for `retry_429_amended`: two 429s then a 200 succeed with the
two backoff sleeps `2` and `4`. -/
theorem retry_429_amended_witness :
    cin7Get get429AmendedSched =
      ⟨some (Json.str "ok"),
        (List.range 2).map (fun i => API_RETRY_DELAY * (i + 1) * 2), 3, none⟩ ∧
    cin7Put put429AmendedSched =
      ⟨PutResult.ok,
        (List.range 2).map (fun i => API_RETRY_DELAY * (i + 1) * 2), 3⟩ ∧
    List.Chain' (· < ·)
      ((List.range 2).map (fun i => API_RETRY_DELAY * (i + 1) * 2)) :=
  retry_429_amended get429AmendedSched put429AmendedSched 2 (by decide)
    (fun i hi => ⟨Json.null, "rate limited", by interval_cases i <;> rfl⟩)
    (fun i hi => ⟨none, "rate limited", by interval_cases i <;> rfl⟩)
    (Json.str "ok") "" rfl "" rfl

/-- Joining a list of plain strings recovers the strings. -/
theorem allStr_map_str (ss : List String) :
    allStr (ss.map Json.str) = some ss := by
  induction ss with
  | nil => rfl
  | cons s rest ih => simp [allStr, asStr, ih]

/-- PUT schedule whose first response is a 2xx with body `[1]`. -/
def put2xxNumSched : Nat → PutResp := fun _ =>
  PutResp.http 200 (some (Json.arr [Json.num 1])) ""

/-- C4 counterexample: a 2xx response whose body is the sequence `[1]` is
"not such a sequence" (its first element carries no failure marker), so the
claim says the call returns success; the code instead calls `.get` on the
integer and the resulting `AttributeError` is not caught by the
`except (ValueError, KeyError)` clause, so the call raises rather than
returning success. -/
theorem put_2xx_body_counterexample :
    (cin7Put put2xxNumSched).result = PutResult.raised "AttributeError" ∧
    PutResult.raised "AttributeError" ≠ PutResult.ok := by
  constructor
  · simp [cin7Put, rangeRetries, cin7PutLoop, put2xxNumSched, inspect2xx]
  · decide

/-- C4 amended: on a first-attempt 2xx the verdict is the body inspection
and the call is never retried; an absent/undecodable body, or a body that is
not a nonempty sequence, yields success; a nonempty sequence whose first
element is a dict with the explicit failure marker yields a logical failure
carrying the joined error text ("; "-joined when a nonempty string list, the
fixed fallback when the error list is falsy) and a dict first element
without the marker yields success; a nonempty sequence whose first element
is not a dict raises an uncaught error (see the counterexample). -/
theorem put_2xx_body_amended :
    (∀ presp body t, presp 0 = PutResp.http 200 body t →
      cin7Put presp = ⟨inspect2xx body, [], 1⟩) ∧
    inspect2xx none = PutResult.ok ∧
    (∀ j, (∀ x xs, j ≠ Json.arr (x :: xs)) → inspect2xx (some j) = PutResult.ok) ∧
    (∀ kvs rest, dictGet kvs "success" ≠ some (Json.bool false) →
      inspect2xx (some (Json.arr (Json.obj kvs :: rest))) = PutResult.ok) ∧
    (∀ kvs rest, dictGet kvs "success" = some (Json.bool false) →
      pyTruthy ((dictGet kvs "errors").getD (Json.arr [])) = false →
      inspect2xx (some (Json.arr (Json.obj kvs :: rest)))
        = PutResult.fail (some "Cin7 reported failure")) ∧
    (∀ kvs rest ss, dictGet kvs "success" = some (Json.bool false) →
      dictGet kvs "errors" = some (Json.arr (ss.map Json.str)) → ss ≠ [] →
      inspect2xx (some (Json.arr (Json.obj kvs :: rest)))
        = PutResult.fail (some (String.intercalate "; " ss))) := by
  refine ⟨?_, rfl, ?_, ?_, ?_, ?_⟩
  · intro presp body t h0
    simp [cin7Put, rangeRetries, cin7PutLoop, h0]
  · intro j hj
    match j with
    | Json.null => rfl
    | Json.bool _ => rfl
    | Json.num _ => rfl
    | Json.str _ => rfl
    | Json.arr [] => rfl
    | Json.arr (x :: xs) => exact absurd rfl (hj x xs)
    | Json.obj _ => rfl
  · intro kvs rest hne
    cases h : dictGet kvs "success" with
    | none => simp [inspect2xx, h]
    | some v =>
      cases v with
      | bool b =>
        cases b with
        | false => exact absurd h hne
        | true => simp [inspect2xx, h]
      | null => simp [inspect2xx, h]
      | num q => simp [inspect2xx, h]
      | str s => simp [inspect2xx, h]
      | arr xs => simp [inspect2xx, h]
      | obj o => simp [inspect2xx, h]
  · intro kvs rest hs herr
    simp [inspect2xx, hs, herr]
  · intro kvs rest ss hs herr hne
    have htr : pyTruthy (Json.arr (ss.map Json.str)) = true := by
      simpa [pyTruthy] using hne
    simp [inspect2xx, hs, herr, htr, joinErrors, allStr_map_str,
      Option.getD]

/-- Witness for `put_2xx_body_amended`: a 2xx carrying a first element with
the failure marker and errors `["bad sku"]` becomes a logical failure with
that message, decided on the first attempt with no sleeps. -/
theorem put_2xx_body_amended_witness :
    cin7Put (fun _ => PutResp.http 200
        (some (Json.arr [Json.obj
          [("success", Json.bool false),
           ("errors", Json.arr [Json.str "bad sku"])]])) "")
      = ⟨PutResult.fail (some "bad sku"), [], 1⟩ ∧
    inspect2xx (some (Json.arr [Json.obj
          [("success", Json.bool false),
           ("errors", Json.arr [Json.str "bad sku"])]]))
      = PutResult.fail (some "bad sku") := by
  have h := put_2xx_body_amended
  have h6 := h.2.2.2.2.2
    [("success", Json.bool false), ("errors", Json.arr [Json.str "bad sku"])]
    [] ["bad sku"] rfl rfl (by simp)
  have h1 := h.1 (fun _ => PutResp.http 200
        (some (Json.arr [Json.obj
          [("success", Json.bool false),
           ("errors", Json.arr [Json.str "bad sku"])]])) "")
        (some (Json.arr [Json.obj
          [("success", Json.bool false),
           ("errors", Json.arr [Json.str "bad sku"])]])) "" rfl
  have h6' : inspect2xx (some (Json.arr [Json.obj
          [("success", Json.bool false),
           ("errors", Json.arr [Json.str "bad sku"])]]))
      = PutResult.fail (some "bad sku") := by
    have hj : ([Json.str "bad sku"] : List Json) = ["bad sku"].map Json.str := rfl
    rw [show String.intercalate "; " ["bad sku"] = "bad sku" from rfl] at h6
    exact h6
  exact ⟨by rw [h1, h6'], h6'⟩

/-- C9: a PUT body that is a single record object goes on the wire wrapped
in a one-element array, a body that is already a sequence is sent
unwrapped, and a validated stage transition sends exactly the one-element
array around the object with the lower-cased keys id and stage. -/
theorem put_payload_wrapping :
    (∀ kvs, putPayload (Json.obj kvs) = Json.arr [Json.obj kvs]) ∧
    (∀ xs, putPayload (Json.arr xs) = Json.arr xs) ∧
    (∀ oid stage, stage ∈ KICKPLATE_STAGES →
      updateWirePayload oid stage
        = some (Json.arr [Json.obj [("id", oid), ("stage", Json.str stage)]])) := by
  refine ⟨fun kvs => rfl, fun xs => rfl, fun oid stage hs => ?_⟩
  simp [updateWirePayload, hs, putPayload]

/-- Witness for `put_payload_wrapping` at a concrete transition. -/
theorem put_payload_wrapping_witness :
    updateWirePayload (Json.num 7) "Kickplate - New"
      = some (Json.arr [Json.obj
          [("id", Json.num 7), ("stage", Json.str "Kickplate - New")]]) :=
  put_payload_wrapping.2.2 (Json.num 7) "Kickplate - New" (by simp [KICKPLATE_STAGES])

-- ==========================================================================
-- Pagination aggregator (lines 217-249 of fetch_kickplate_orders)
-- ==========================================================================

/-- Response-shape normalization (lines 234-241): a bare list is taken as
is; a dict yields `get("data", get("Data", []))`, falling back to
`[response] if response.get("Id") else []` when that is not a list; any
other shape makes the loop break (`none`). -/
def pageOrders : Json → Option (List Json)
  | Json.arr xs => some xs
  | Json.obj kvs =>
    match (dictGet kvs "data").getD ((dictGet kvs "Data").getD (Json.arr [])) with
    | Json.arr xs => some xs
    | _ => some (if optTruthy (dictGet kvs "Id") then [Json.obj kvs] else [])
  | _ => none

/-- Observable run of the pagination loop: all records kept, and the
`(page, rows)` query parameters of every request issued, in order. -/
structure FetchPages where
  records : List Json
  requests : List (Nat × Nat)

/-- The `while page <= 100` pagination loop.  `oracle page rows` is the
result of `cin7_get("/SalesOrders", params)` (`none` = the call failed
after retries).  The fuel argument is an artifact making the recursion
structural: the entry point supplies fuel `101`, which the guard
`page ≤ 100` can never outrun, so fuel exhaustion is unreachable. -/
def fetchLoopF (oracle : Nat → Nat → Option Json) : Nat → Nat → FetchPages
  | 0, _ => ⟨[], []⟩
  | fuel + 1, page =>
    if page ≤ 100 then
      match oracle page 250 with
      | none => ⟨[], [(page, 250)]⟩
      | some resp =>
        match pageOrders resp with
        | none => ⟨[], [(page, 250)]⟩
        | some orders =>
          if orders.isEmpty then ⟨[], [(page, 250)]⟩
          else if orders.length < 250 then ⟨orders, [(page, 250)]⟩
          else
            let r := fetchLoopF oracle fuel (page + 1)
            ⟨orders ++ r.records, (page, 250) :: r.requests⟩
    else ⟨[], []⟩

/-- The aggregation phase of `fetch_kickplate_orders`, starting at page 1. -/
def fetchAllPages (oracle : Nat → Nat → Option Json) : FetchPages :=
  fetchLoopF oracle 101 1

/-- The loop continues past page `p` iff the fetch succeeded, the shape
normalized to a list, and that list is nonempty with at least 250
entries. -/
def continuesB (oracle : Nat → Nat → Option Json) (p : Nat) : Bool :=
  match oracle p 250 with
  | none => false
  | some r =>
    match pageOrders r with
    | none => false
    | some os => !os.isEmpty && !(decide (os.length < 250))

/-- Number of pages the loop requests starting from `page`. -/
def numPagesF (oracle : Nat → Nat → Option Json) : Nat → Nat → Nat
  | 0, _ => 0
  | fuel + 1, page =>
    if page ≤ 100 then
      (if continuesB oracle page then numPagesF oracle fuel (page + 1) + 1 else 1)
    else 0

/-- Records contributed by page `p` (empty on failure or non-list shape). -/
def recordsAt (oracle : Nat → Nat → Option Json) (p : Nat) : List Json :=
  match oracle p 250 with
  | none => []
  | some r => (pageOrders r).getD []

/-- The pagination loop requests exactly the pages counted by `numPagesF`,
consecutively, with rows 250, and keeps the concatenation of every
requested page's records. -/
theorem fetchLoopF_spec (oracle : Nat → Nat → Option Json) :
    ∀ fuel page, 101 - page ≤ fuel →
      (fetchLoopF oracle fuel page).requests
        = (List.range' page (numPagesF oracle fuel page)).map (fun q => (q, 250)) ∧
      (fetchLoopF oracle fuel page).records
        = (List.range' page (numPagesF oracle fuel page)).flatMap (recordsAt oracle) := by
  intro fuel
  induction fuel with
  | zero =>
    intro page hp
    simp [fetchLoopF, numPagesF]
  | succ n ih =>
    intro page hp
    by_cases hple : page ≤ 100
    · simp only [fetchLoopF, numPagesF, if_pos hple]
      cases ho : oracle page 250 with
      | none =>
        simp [continuesB, ho, recordsAt, List.range'_one]
      | some resp =>
        cases hpo : pageOrders resp with
        | none =>
          simp [continuesB, ho, hpo, recordsAt, List.range'_one]
        | some orders =>
          by_cases he : orders.isEmpty
          · have : orders = [] := List.isEmpty_iff.mp he
            simp [continuesB, ho, hpo, recordsAt, he, this, List.range'_one]
          · by_cases hlen : orders.length < 250
            · simp [continuesB, ho, hpo, recordsAt, he, hlen, List.range'_one]
            · have hc : continuesB oracle page = true := by
                simp [continuesB, ho, hpo, he, hlen]
              obtain ⟨ih1, ih2⟩ := ih (page + 1) (by omega)
              simp [ho, hpo, he, hlen, hc, ih1, ih2, List.range'_succ,
                recordsAt]
    · simp [fetchLoopF, numPagesF, hple]

/-- `numPagesF` counts at least one and at most `101 - page` pages. -/
theorem numPagesF_bounds (oracle : Nat → Nat → Option Json) :
    ∀ fuel page, 101 - page ≤ fuel → page ≤ 100 →
      1 ≤ numPagesF oracle fuel page ∧ numPagesF oracle fuel page ≤ 101 - page := by
  intro fuel
  induction fuel with
  | zero => intro page hp hple; omega
  | succ n ih =>
    intro page hp hple
    simp only [numPagesF, if_pos hple]
    by_cases hc : continuesB oracle page = true
    · rw [if_pos hc]
      by_cases hnext : page + 1 ≤ 100
      · have := ih (page + 1) (by omega) hnext
        omega
      · have h101 : page = 100 := by omega
        subst h101
        have hz : numPagesF oracle n (100 + 1) = 0 := by
          cases n with
          | zero => rfl
          | succ m => simp [numPagesF]
        omega
    · rw [if_neg hc]
      omega

/-- Every non-final requested page satisfied the continuation condition. -/
theorem numPagesF_continues (oracle : Nat → Nat → Option Json) :
    ∀ fuel page, 101 - page ≤ fuel →
      ∀ i, i + 1 < numPagesF oracle fuel page →
        continuesB oracle (page + i) = true := by
  intro fuel
  induction fuel with
  | zero =>
    intro page hp i hi
    simp [numPagesF] at hi
  | succ n ih =>
    intro page hp i hi
    by_cases hple : page ≤ 100
    · simp only [numPagesF, if_pos hple] at hi
      by_cases hc : continuesB oracle page
      · simp only [hc, if_pos] at hi
        cases i with
        | zero => simpa using hc
        | succ j =>
          have := ih (page + 1) (by omega) j (by omega)
          simpa [Nat.add_assoc, Nat.add_comm 1 j] using this
      · simp [hc] at hi
    · simp [numPagesF, hple] at hi

/-- The final requested page either hit the 100-page ceiling or failed the
continuation condition. -/
theorem numPagesF_last (oracle : Nat → Nat → Option Json) :
    ∀ fuel page, 101 - page ≤ fuel → page ≤ 100 →
      page + numPagesF oracle fuel page - 1 = 100 ∨
      continuesB oracle (page + numPagesF oracle fuel page - 1) = false := by
  intro fuel
  induction fuel with
  | zero => intro page hp hple; omega
  | succ n ih =>
    intro page hp hple
    simp only [numPagesF, if_pos hple]
    by_cases hc : continuesB oracle page = true
    · rw [if_pos hc]
      by_cases hnext : page + 1 ≤ 100
      · have h := ih (page + 1) (by omega) hnext
        have hb := numPagesF_bounds oracle n (page + 1) (by omega) hnext
        rcases h with h | h
        · left; omega
        · right
          have heq : page + (numPagesF oracle n (page + 1) + 1) - 1
              = page + 1 + numPagesF oracle n (page + 1) - 1 := by omega
          rw [heq]
          exact h
      · have h101 : page = 100 := by omega
        subst h101
        have hz : numPagesF oracle n (100 + 1) = 0 := by
          cases n with
          | zero => rfl
          | succ m => simp [numPagesF]
        left
        omega
    · rw [if_neg hc]
      right
      simpa [Nat.add_sub_cancel] using hc

/-- Total number of pages the aggregator requests. -/
def numPages (oracle : Nat → Nat → Option Json) : Nat :=
  numPagesF oracle 101 1

/-- A full-page record used by the concrete pagination scenarios. -/
def fullRec : Json := Json.obj [("Id", Json.num 1)]

/-- Oracle with a full page 1, a 100-record page 2, and more data on every
later page (which must nevertheless not be requested). -/
def shortPage2Oracle : Nat → Nat → Option Json := fun p _ =>
  if p = 1 then some (Json.arr (List.replicate 250 fullRec))
  else some (Json.arr (List.replicate 100 fullRec))

/-- Oracle with a full page 1 whose page-2 fetch fails. -/
def failPage2Oracle : Nat → Nat → Option Json := fun p _ =>
  if p = 1 then some (Json.arr (List.replicate 250 fullRec)) else none

/-- C3: the aggregator requests consecutive ascending pages starting at 1
with page size 250, at least one and at most 100 of them; it keeps the
concatenation of all requested pages' records (so a failure returns the
partial results); it continues past every non-final requested page and
stops at the final one because the 100-page ceiling was reached or a stop
condition held there, where (for responses of the documented shapes) the
stop conditions are exactly a failed fetch or a page with fewer than 250
records (zero included); concretely, a 100-record page 2 after a full
page 1 stops pagination with pages 1-2 requested only, and a failing
page 2 after a full page 1 returns the 250 page-1 records. -/
theorem pagination_spec (oracle : Nat → Nat → Option Json)
    (hshape : ∀ p r, oracle p 250 = some r → (pageOrders r).isSome = true) :
    (1 ≤ numPages oracle ∧ numPages oracle ≤ 100) ∧
    (fetchAllPages oracle).requests
      = (List.range' 1 (numPages oracle)).map (fun q => (q, 250)) ∧
    (fetchAllPages oracle).records
      = (List.range' 1 (numPages oracle)).flatMap (recordsAt oracle) ∧
    (∀ p, 1 ≤ p → p < numPages oracle → continuesB oracle p = true) ∧
    (numPages oracle = 100 ∨ continuesB oracle (numPages oracle) = false) ∧
    (∀ p, continuesB oracle p = false ↔
      (oracle p 250 = none ∨
        ∃ r os, oracle p 250 = some r ∧ pageOrders r = some os ∧
          os.length < 250)) ∧
    (fetchAllPages shortPage2Oracle).requests = [(1, 250), (2, 250)] ∧
    (fetchAllPages shortPage2Oracle).records
      = List.replicate 250 fullRec ++ List.replicate 100 fullRec ∧
    (fetchAllPages failPage2Oracle).requests = [(1, 250), (2, 250)] ∧
    (fetchAllPages failPage2Oracle).records = List.replicate 250 fullRec := by
  have hfuel : 101 - 1 ≤ 101 := by norm_num
  have hb := numPagesF_bounds oracle 101 1 hfuel (by norm_num)
  obtain ⟨hreq, hrec⟩ := fetchLoopF_spec oracle 101 1 hfuel
  refine ⟨hb, hreq, hrec, ?_, ?_, ?_, rfl, rfl, rfl, rfl⟩
  · intro p hp1 hplt
    have hplt' : p < numPagesF oracle 101 1 := hplt
    have := numPagesF_continues oracle 101 1 hfuel (p - 1) (by omega)
    have hpe : 1 + (p - 1) = p := by omega
    rwa [hpe] at this
  · have h := numPagesF_last oracle 101 1 hfuel (by norm_num)
    have hpe : 1 + numPagesF oracle 101 1 - 1 = numPagesF oracle 101 1 := by
      have := hb.1
      omega
    rw [hpe] at h
    exact h
  · intro p
    cases ho : oracle p 250 with
    | none =>
      have hf : continuesB oracle p = false := by simp [continuesB, ho]
      simp [hf, ho]
    | some r =>
      obtain ⟨os, hos⟩ := Option.isSome_iff_exists.mp (hshape p r ho)
      have hcb : continuesB oracle p
          = (!os.isEmpty && !(decide (os.length < 250))) := by
        simp [continuesB, ho, hos]
      rw [hcb]
      constructor
      · intro h
        right
        refine ⟨r, os, rfl, hos, ?_⟩
        by_cases hemp : os.isEmpty
        · have : os = [] := List.isEmpty_iff.mp hemp
          simp [this]
        · by_cases hlt : os.length < 250
          · exact hlt
          · exfalso
            simp [hemp, hlt] at h
      · rintro (h | ⟨r', os', hr', hos', hlt⟩)
        · cases h
        · injection hr' with hre
          subst hre
          rw [hos] at hos'
          injection hos' with hose
          subst hose
          simp [hlt, List.isEmpty_iff, List.length_eq_zero]

/-- Witness for `pagination_spec` on the short-page-2 oracle: pages 1 and 2
are requested, page 3 is not, and both pages' records are kept. -/
theorem pagination_spec_witness :
    (fetchAllPages shortPage2Oracle).requests = [(1, 250), (2, 250)] ∧
    (fetchAllPages shortPage2Oracle).records
      = List.replicate 250 fullRec ++ List.replicate 100 fullRec := by
  have h := pagination_spec shortPage2Oracle (by
    intro p r hr
    unfold shortPage2Oracle at hr
    split at hr <;> · cases hr; rfl)
  exact ⟨h.2.2.2.2.2.2.1, h.2.2.2.2.2.2.2.1⟩

-- ==========================================================================
-- parse_date (lines 193-208): strptime over the seven listed format strings
-- ==========================================================================

/-- A Python `datetime` value. -/
structure PyDateTime where
  year : Nat
  month : Nat
  day : Nat
  hour : Nat
  minute : Nat
  second : Nat
  micro : Nat
deriving DecidableEq

/-- Leap-year rule used by the calendar check of the `datetime`
constructor. -/
def isLeap (y : Nat) : Bool :=
  decide ((y % 4 = 0 ∧ y % 100 ≠ 0) ∨ y % 400 = 0)

/-- Days in a month. -/
def daysInMonth (y m : Nat) : Nat :=
  if m = 2 then (if isLeap y then 29 else 28)
  else if m = 4 ∨ m = 6 ∨ m = 9 ∨ m = 11 then 30
  else 31

/-- Valid `datetime` values within this model.  The lower year bound 1000
reflects that the model's `strftime` always prints the year on four
digits, which C `strftime` guarantees only for four-digit years. -/
def ValidDT (dt : PyDateTime) : Prop :=
  1000 ≤ dt.year ∧ dt.year ≤ 9999 ∧ 1 ≤ dt.month ∧ dt.month ≤ 12 ∧
  1 ≤ dt.day ∧ dt.day ≤ daysInMonth dt.year dt.month ∧
  dt.hour ≤ 23 ∧ dt.minute ≤ 59 ∧ dt.second ≤ 59 ∧ dt.micro ≤ 999999

/-- Field values collected by `strptime`, with its defaults. -/
structure Parts where
  y : Nat := 1900
  mo : Nat := 1
  dd : Nat := 1
  hh : Nat := 0
  mi : Nat := 0
  ss : Nat := 0
  ff : Nat := 0
deriving DecidableEq

/-- ASCII digit test (`\d` over the inputs of interest). -/
def isDigitC (c : Char) : Bool :=
  decide (48 ≤ c.toNat ∧ c.toNat ≤ 57)

/-- `%Y`: exactly four digits. -/
def pY : List Char → Option (Nat × List Char)
  | c1 :: c2 :: c3 :: c4 :: rest =>
    if isDigitC c1 ∧ isDigitC c2 ∧ isDigitC c3 ∧ isDigitC c4 then
      some ((c1.toNat - 48) * 1000 + (c2.toNat - 48) * 100 +
        (c3.toNat - 48) * 10 + (c4.toNat - 48), rest)
    else none
  | _ => none

/-- `%m`: the ordered alternation `1[0-2] | 0[1-9] | [1-9]`. -/
def pMon : List Char → Option (Nat × List Char)
  | c1 :: c2 :: rest =>
    if c1.toNat = 49 ∧ 48 ≤ c2.toNat ∧ c2.toNat ≤ 50 then
      some (10 + (c2.toNat - 48), rest)
    else if c1.toNat = 48 ∧ 49 ≤ c2.toNat ∧ c2.toNat ≤ 57 then
      some (c2.toNat - 48, rest)
    else if 49 ≤ c1.toNat ∧ c1.toNat ≤ 57 then
      some (c1.toNat - 48, c2 :: rest)
    else none
  | [c1] =>
    if 49 ≤ c1.toNat ∧ c1.toNat ≤ 57 then some (c1.toNat - 48, []) else none
  | [] => none

/-- `%d`: the ordered alternation `3[01] | [12]\d | 0[1-9] | [1-9]`. -/
def pDay : List Char → Option (Nat × List Char)
  | c1 :: c2 :: rest =>
    if c1.toNat = 51 ∧ (c2.toNat = 48 ∨ c2.toNat = 49) then
      some (30 + (c2.toNat - 48), rest)
    else if (c1.toNat = 49 ∨ c1.toNat = 50) ∧ isDigitC c2 then
      some ((c1.toNat - 48) * 10 + (c2.toNat - 48), rest)
    else if c1.toNat = 48 ∧ 49 ≤ c2.toNat ∧ c2.toNat ≤ 57 then
      some (c2.toNat - 48, rest)
    else if 49 ≤ c1.toNat ∧ c1.toNat ≤ 57 then
      some (c1.toNat - 48, c2 :: rest)
    else none
  | [c1] =>
    if 49 ≤ c1.toNat ∧ c1.toNat ≤ 57 then some (c1.toNat - 48, []) else none
  | [] => none

/-- `%H`: the ordered alternation `2[0-3] | [0-1]\d | \d`. -/
def pHr : List Char → Option (Nat × List Char)
  | c1 :: c2 :: rest =>
    if c1.toNat = 50 ∧ 48 ≤ c2.toNat ∧ c2.toNat ≤ 51 then
      some (20 + (c2.toNat - 48), rest)
    else if (c1.toNat = 48 ∨ c1.toNat = 49) ∧ isDigitC c2 then
      some ((c1.toNat - 48) * 10 + (c2.toNat - 48), rest)
    else if isDigitC c1 then some (c1.toNat - 48, c2 :: rest)
    else none
  | [c1] => if isDigitC c1 then some (c1.toNat - 48, []) else none
  | [] => none

/-- `%M`: the ordered alternation `[0-5]\d | \d`. -/
def pMinute : List Char → Option (Nat × List Char)
  | c1 :: c2 :: rest =>
    if 48 ≤ c1.toNat ∧ c1.toNat ≤ 53 ∧ isDigitC c2 then
      some ((c1.toNat - 48) * 10 + (c2.toNat - 48), rest)
    else if isDigitC c1 then some (c1.toNat - 48, c2 :: rest)
    else none
  | [c1] => if isDigitC c1 then some (c1.toNat - 48, []) else none
  | [] => none

/-- `%S`: the ordered alternation `6[0-1] | [0-5]\d | \d` (values 60 and 61
pass the regex and are rejected by the constructor check). -/
def pSec : List Char → Option (Nat × List Char)
  | c1 :: c2 :: rest =>
    if c1.toNat = 54 ∧ (c2.toNat = 48 ∨ c2.toNat = 49) then
      some (60 + (c2.toNat - 48), rest)
    else if 48 ≤ c1.toNat ∧ c1.toNat ≤ 53 ∧ isDigitC c2 then
      some ((c1.toNat - 48) * 10 + (c2.toNat - 48), rest)
    else if isDigitC c1 then some (c1.toNat - 48, c2 :: rest)
    else none
  | [c1] => if isDigitC c1 then some (c1.toNat - 48, []) else none
  | [] => none

/-- `%f`: `[0-9]{1,6}`, right-padded with zeros to a microsecond count. -/
def pFrac (s : List Char) : Option (Nat × List Char) :=
  let ds := (s.takeWhile isDigitC).take 6
  if ds.length = 0 then none
  else
    some ((ds.foldl (fun a c => a * 10 + (c.toNat - 48)) 0) * 10 ^ (6 - ds.length),
      s.drop ds.length)

/-- Tokens of the format strings `parse_date` tries. -/
inductive FmtTok where
  | lit (c : Char) : FmtTok
  | Y : FmtTok
  | m : FmtTok
  | d : FmtTok
  | H : FmtTok
  | M : FmtTok
  | S : FmtTok
  | f : FmtTok
deriving DecidableEq

/-- Run a format over an input, threading the collected fields. -/
def runFmt : List FmtTok → Parts → List Char → Option (Parts × List Char)
  | [], p, s => some (p, s)
  | FmtTok.lit c :: ts, p, s =>
    match s with
    | c' :: rest => if c' = c then runFmt ts p rest else none
    | [] => none
  | FmtTok.Y :: ts, p, s =>
    match pY s with
    | some (n, rest) => runFmt ts { p with y := n } rest
    | none => none
  | FmtTok.m :: ts, p, s =>
    match pMon s with
    | some (n, rest) => runFmt ts { p with mo := n } rest
    | none => none
  | FmtTok.d :: ts, p, s =>
    match pDay s with
    | some (n, rest) => runFmt ts { p with dd := n } rest
    | none => none
  | FmtTok.H :: ts, p, s =>
    match pHr s with
    | some (n, rest) => runFmt ts { p with hh := n } rest
    | none => none
  | FmtTok.M :: ts, p, s =>
    match pMinute s with
    | some (n, rest) => runFmt ts { p with mi := n } rest
    | none => none
  | FmtTok.S :: ts, p, s =>
    match pSec s with
    | some (n, rest) => runFmt ts { p with ss := n } rest
    | none => none
  | FmtTok.f :: ts, p, s =>
    match pFrac s with
    | some (n, rest) => runFmt ts { p with ff := n } rest
    | none => none

/-- The `datetime` constructor check applied to the collected fields. -/
def mkDT (p : Parts) : Option PyDateTime :=
  if 1 ≤ p.y ∧ p.y ≤ 9999 ∧ 1 ≤ p.mo ∧ p.mo ≤ 12 ∧
      1 ≤ p.dd ∧ p.dd ≤ daysInMonth p.y p.mo ∧
      p.hh ≤ 23 ∧ p.mi ≤ 59 ∧ p.ss ≤ 59 ∧ p.ff ≤ 999999 then
    some ⟨p.y, p.mo, p.dd, p.hh, p.mi, p.ss, p.ff⟩
  else none

/-- `datetime.strptime(s, fmt)`: the full input must be consumed and the
fields must pass the constructor check. -/
def tryFmt (toks : List FmtTok) (s : List Char) : Option PyDateTime :=
  match runFmt toks {} s with
  | some (p, []) => mkDT p
  | _ => none

def fmtBare : List FmtTok :=
  [FmtTok.Y, FmtTok.lit '-', FmtTok.m, FmtTok.lit '-', FmtTok.d]

def fmtFull : List FmtTok :=
  fmtBare ++ [FmtTok.lit 'T', FmtTok.H, FmtTok.lit ':', FmtTok.M,
    FmtTok.lit ':', FmtTok.S]

def fmtFullF : List FmtTok := fmtFull ++ [FmtTok.lit '.', FmtTok.f]

def fmtDMY : List FmtTok :=
  [FmtTok.d, FmtTok.lit '/', FmtTok.m, FmtTok.lit '/', FmtTok.Y]

def fmtMDY : List FmtTok :=
  [FmtTok.m, FmtTok.lit '/', FmtTok.d, FmtTok.lit '/', FmtTok.Y]

/-- The source's `date_formats` list (line 197-201), as token lists. -/
def dateFormats : List (List FmtTok) :=
  [fmtFull, fmtFullF, fmtFull ++ [FmtTok.lit 'Z'], fmtFullF ++ [FmtTok.lit 'Z'],
   fmtBare, fmtDMY, fmtMDY]

/-- `fmt.rstrip("Z")` applied to a format string. -/
def rstripZToks (ts : List FmtTok) : List FmtTok :=
  (ts.reverse.dropWhile (· = FmtTok.lit 'Z')).reverse

/-- `date_value.replace("+00:00", "")`: removes every occurrence,
scanning left to right (the six-character pattern is matched
structurally). -/
def replacePlus : List Char → List Char
  | '+' :: '0' :: '0' :: ':' :: '0' :: '0' :: rest => replacePlus rest
  | c :: rest => c :: replacePlus rest
  | [] => []

/-- `.rstrip("Z")`: drop every trailing `Z`. -/
def rstripZ (s : List Char) : List Char :=
  (s.reverse.dropWhile (· = 'Z')).reverse

/-- `parse_date` on a string value: clean, then try each format in order
(`strptime` is total-consumption; the first success wins). -/
def parseDateStr (cs : List Char) : Option PyDateTime :=
  let cleaned := rstripZ (replacePlus cs)
  (dateFormats.map rstripZToks).findSome? (fun f => tryFmt f cleaned)

/-- `parse_date` (lines 193-208): `None` and non-string inputs parse to
nothing. -/
def parseDate : Option Json → Option PyDateTime
  | some (Json.str s) => parseDateStr s.toList
  | _ => none

-- ==========================================================================
-- strftime for the seven format strings
-- ==========================================================================

/-- Digit character of a digit value. -/
def dc : Nat → Char
  | 0 => '0' | 1 => '1' | 2 => '2' | 3 => '3' | 4 => '4'
  | 5 => '5' | 6 => '6' | 7 => '7' | 8 => '8' | 9 => '9'
  | _ => '0'

def pad2 (n : Nat) : List Char := [dc (n / 10), dc (n % 10)]

def pad4 (n : Nat) : List Char :=
  [dc (n / 1000), dc (n / 100 % 10), dc (n / 10 % 10), dc (n % 10)]

def pad6 (n : Nat) : List Char :=
  [dc (n / 100000), dc (n / 10000 % 10), dc (n / 1000 % 10),
   dc (n / 100 % 10), dc (n / 10 % 10), dc (n % 10)]

/-- Output of one `strftime` directive. -/
def fmtOut (dt : PyDateTime) : FmtTok → List Char
  | FmtTok.lit c => [c]
  | FmtTok.Y => pad4 dt.year
  | FmtTok.m => pad2 dt.month
  | FmtTok.d => pad2 dt.day
  | FmtTok.H => pad2 dt.hour
  | FmtTok.M => pad2 dt.minute
  | FmtTok.S => pad2 dt.second
  | FmtTok.f => pad6 dt.micro

/-- `dt.strftime(fmt)` for the formats of interest. -/
def strftime (dt : PyDateTime) (toks : List FmtTok) : List Char :=
  toks.flatMap (fmtOut dt)

theorem dc_toNat_of_lt (n : Nat) (h : n < 10) : (dc n).toNat = 48 + n := by
  interval_cases n <;> rfl

theorem dc_range (n : Nat) : 48 ≤ (dc n).toNat ∧ (dc n).toNat ≤ 57 := by
  unfold dc
  split <;> decide

theorem ne_dc_of_toNat {ch : Char} (h : ch.toNat < 48 ∨ 57 < ch.toNat)
    (n : Nat) : ch ≠ dc n := by
  intro e
  have := dc_range n
  rw [← e] at this
  omega

theorem isDigitC_dc (n : Nat) (h : n < 10) : isDigitC (dc n) = true := by
  rw [isDigitC, dc_toNat_of_lt n h]
  simp
  omega

theorem isDigitC_slash : isDigitC '/' = false := by decide

theorem pY_pad4 (y : Nat) (hy : y ≤ 9999) (rest : List Char) :
    pY (pad4 y ++ rest) = some (y, rest) := by
  have h1 : y / 1000 < 10 := by omega
  have h2 : y / 100 % 10 < 10 := Nat.mod_lt _ (by norm_num)
  have h3 : y / 10 % 10 < 10 := Nat.mod_lt _ (by norm_num)
  have h4 : y % 10 < 10 := Nat.mod_lt _ (by norm_num)
  show pY (dc (y / 1000) :: dc (y / 100 % 10) :: dc (y / 10 % 10) ::
    dc (y % 10) :: rest) = some (y, rest)
  simp only [pY]
  rw [if_pos ⟨isDigitC_dc _ h1, isDigitC_dc _ h2, isDigitC_dc _ h3,
    isDigitC_dc _ h4⟩]
  rw [dc_toNat_of_lt _ h1, dc_toNat_of_lt _ h2, dc_toNat_of_lt _ h3,
    dc_toNat_of_lt _ h4]
  simp only [Option.some.injEq, Prod.mk.injEq]
  exact ⟨by omega, trivial⟩

theorem pY_slash (a b : Nat) (ha : a < 10) (hb : b < 10) (rest : List Char) :
    pY (dc a :: dc b :: '/' :: rest) = none := by
  cases rest with
  | nil => rfl
  | cons c4 rest4 =>
    simp only [pY]
    rw [if_neg]
    intro hcond
    have := hcond.2.2.1
    rw [isDigitC] at this
    simp at this

theorem pMon_pad2 (m : Nat) (h1 : 1 ≤ m) (h2 : m ≤ 12) (rest : List Char) :
    pMon (pad2 m ++ rest) = some (m, rest) := by
  have ha : m / 10 < 10 := by omega
  have hb : m % 10 < 10 := by omega
  show pMon (dc (m / 10) :: dc (m % 10) :: rest) = some (m, rest)
  simp only [pMon]
  rw [dc_toNat_of_lt _ ha, dc_toNat_of_lt _ hb]
  by_cases hm : m ≤ 9
  · rw [if_neg (by omega), if_pos (by omega)]
    simp only [Option.some.injEq, Prod.mk.injEq]
    exact ⟨by omega, trivial⟩
  · rw [if_pos (by omega)]
    simp only [Option.some.injEq, Prod.mk.injEq]
    exact ⟨by omega, trivial⟩

theorem pMon_pad2_big (d : Nat) (h1 : 13 ≤ d) (h2 : d ≤ 31) (rest : List Char) :
    pMon (pad2 d ++ rest) = some (d / 10, dc (d % 10) :: rest) := by
  have ha : d / 10 < 10 := by omega
  have hb : d % 10 < 10 := by omega
  show pMon (dc (d / 10) :: dc (d % 10) :: rest) = some (d / 10, dc (d % 10) :: rest)
  simp only [pMon]
  rw [dc_toNat_of_lt _ ha]
  rw [if_neg (by rw [dc_toNat_of_lt _ hb]; omega),
    if_neg (by rw [dc_toNat_of_lt _ hb]; omega), if_pos (by omega)]
  simp only [Option.some.injEq, Prod.mk.injEq]
  exact ⟨by omega, trivial⟩

theorem pDay_pad2 (d : Nat) (h1 : 1 ≤ d) (h2 : d ≤ 31) (rest : List Char) :
    pDay (pad2 d ++ rest) = some (d, rest) := by
  have ha : d / 10 < 10 := by omega
  have hb : d % 10 < 10 := by omega
  show pDay (dc (d / 10) :: dc (d % 10) :: rest) = some (d, rest)
  simp only [pDay]
  rw [dc_toNat_of_lt _ ha]
  by_cases h30 : 30 ≤ d
  · rw [if_pos (by rw [dc_toNat_of_lt _ hb]; omega)]
    rw [dc_toNat_of_lt _ hb]
    simp only [Option.some.injEq, Prod.mk.injEq]
    exact ⟨by omega, trivial⟩
  · by_cases h10 : 10 ≤ d
    · rw [if_neg (by rw [dc_toNat_of_lt _ hb]; omega),
        if_pos ⟨by omega, isDigitC_dc _ hb⟩]
      rw [dc_toNat_of_lt _ hb]
      simp only [Option.some.injEq, Prod.mk.injEq]
      exact ⟨by omega, trivial⟩
    · rw [if_neg (by rw [dc_toNat_of_lt _ hb]; omega),
        if_neg (by intro hcond; omega),
        if_pos (by rw [dc_toNat_of_lt _ hb]; omega)]
      rw [dc_toNat_of_lt _ hb]
      simp only [Option.some.injEq, Prod.mk.injEq]
      exact ⟨by omega, trivial⟩

theorem pHr_pad2 (h : Nat) (h2 : h ≤ 23) (rest : List Char) :
    pHr (pad2 h ++ rest) = some (h, rest) := by
  have ha : h / 10 < 10 := by omega
  have hb : h % 10 < 10 := by omega
  show pHr (dc (h / 10) :: dc (h % 10) :: rest) = some (h, rest)
  simp only [pHr]
  rw [dc_toNat_of_lt _ ha]
  by_cases h20 : 20 ≤ h
  · rw [if_pos (by rw [dc_toNat_of_lt _ hb]; omega)]
    rw [dc_toNat_of_lt _ hb]
    simp only [Option.some.injEq, Prod.mk.injEq]
    exact ⟨by omega, trivial⟩
  · rw [if_neg (by rw [dc_toNat_of_lt _ hb]; omega),
      if_pos ⟨by omega, isDigitC_dc _ hb⟩]
    rw [dc_toNat_of_lt _ hb]
    simp only [Option.some.injEq, Prod.mk.injEq]
    exact ⟨by omega, trivial⟩

theorem pMinute_pad2 (n : Nat) (h2 : n ≤ 59) (rest : List Char) :
    pMinute (pad2 n ++ rest) = some (n, rest) := by
  have ha : n / 10 < 10 := by omega
  have hb : n % 10 < 10 := by omega
  show pMinute (dc (n / 10) :: dc (n % 10) :: rest) = some (n, rest)
  simp only [pMinute]
  rw [dc_toNat_of_lt _ ha]
  rw [if_pos ⟨by omega, by omega, isDigitC_dc _ hb⟩]
  rw [dc_toNat_of_lt _ hb]
  simp only [Option.some.injEq, Prod.mk.injEq]
  exact ⟨by omega, trivial⟩

theorem pSec_pad2 (n : Nat) (h2 : n ≤ 59) (rest : List Char) :
    pSec (pad2 n ++ rest) = some (n, rest) := by
  have ha : n / 10 < 10 := by omega
  have hb : n % 10 < 10 := by omega
  show pSec (dc (n / 10) :: dc (n % 10) :: rest) = some (n, rest)
  simp only [pSec]
  rw [dc_toNat_of_lt _ ha]
  rw [if_neg (by rw [dc_toNat_of_lt _ hb]; omega),
    if_pos ⟨by omega, by omega, isDigitC_dc _ hb⟩]
  rw [dc_toNat_of_lt _ hb]
  simp only [Option.some.injEq, Prod.mk.injEq]
  exact ⟨by omega, trivial⟩

theorem pFrac_pad6 (u : Nat) (hu : u ≤ 999999) :
    pFrac (pad6 u) = some (u, []) := by
  have h1 : u / 100000 < 10 := by omega
  have h2 : u / 10000 % 10 < 10 := Nat.mod_lt _ (by norm_num)
  have h3 : u / 1000 % 10 < 10 := Nat.mod_lt _ (by norm_num)
  have h4 : u / 100 % 10 < 10 := Nat.mod_lt _ (by norm_num)
  have h5 : u / 10 % 10 < 10 := Nat.mod_lt _ (by norm_num)
  have h6 : u % 10 < 10 := Nat.mod_lt _ (by norm_num)
  show pFrac [dc (u / 100000), dc (u / 10000 % 10), dc (u / 1000 % 10),
    dc (u / 100 % 10), dc (u / 10 % 10), dc (u % 10)] = some (u, [])
  simp only [pFrac, List.takeWhile, isDigitC_dc _ h1, isDigitC_dc _ h2,
    isDigitC_dc _ h3, isDigitC_dc _ h4, isDigitC_dc _ h5, isDigitC_dc _ h6,
    List.take, List.foldl, List.drop, List.length_cons, List.length_nil]
  rw [if_neg (by norm_num)]
  rw [dc_toNat_of_lt _ h1, dc_toNat_of_lt _ h2, dc_toNat_of_lt _ h3,
    dc_toNat_of_lt _ h4, dc_toNat_of_lt _ h5, dc_toNat_of_lt _ h6]
  simp only [Option.some.injEq, Prod.mk.injEq]
  constructor
  · have e : (6 : Nat) - 6 = 0 := rfl
    norm_num
    omega
  · trivial

theorem runFmt_append (ts1 ts2 : List FmtTok) (p : Parts) (s : List Char) :
    runFmt (ts1 ++ ts2) p s
      = (runFmt ts1 p s).bind (fun pr => runFmt ts2 pr.1 pr.2) := by
  induction ts1 generalizing p s with
  | nil => simp [runFmt]
  | cons t ts ih =>
    cases t with
    | lit c =>
      cases s with
      | nil => simp [runFmt]
      | cons c' rest =>
        by_cases hc : c' = c <;> simp [runFmt, hc, ih]
    | Y =>
      cases hp : pY s with
      | none => simp [runFmt, hp]
      | some pr => cases pr with | mk n rest => simp [runFmt, hp, ih]
    | m =>
      cases hp : pMon s with
      | none => simp [runFmt, hp]
      | some pr => cases pr with | mk n rest => simp [runFmt, hp, ih]
    | d =>
      cases hp : pDay s with
      | none => simp [runFmt, hp]
      | some pr => cases pr with | mk n rest => simp [runFmt, hp, ih]
    | H =>
      cases hp : pHr s with
      | none => simp [runFmt, hp]
      | some pr => cases pr with | mk n rest => simp [runFmt, hp, ih]
    | M =>
      cases hp : pMinute s with
      | none => simp [runFmt, hp]
      | some pr => cases pr with | mk n rest => simp [runFmt, hp, ih]
    | S =>
      cases hp : pSec s with
      | none => simp [runFmt, hp]
      | some pr => cases pr with | mk n rest => simp [runFmt, hp, ih]
    | f =>
      cases hp : pFrac s with
      | none => simp [runFmt, hp]
      | some pr => cases pr with | mk n rest => simp [runFmt, hp, ih]

theorem daysInMonth_le_31 (y m : Nat) : daysInMonth y m ≤ 31 := by
  unfold daysInMonth
  split
  · split <;> norm_num
  · split <;> norm_num

theorem daysInMonth_ge_28 (y m : Nat) : 28 ≤ daysInMonth y m := by
  unfold daysInMonth
  split
  · split <;> norm_num
  · split <;> norm_num

/-- Running the bare-date format over its canonical rendering. -/
theorem runFmt_bare (dt : PyDateTime) (hv : ValidDT dt) (p : Parts)
    (rest : List Char) :
    runFmt fmtBare p
        (pad4 dt.year ++ ('-' :: (pad2 dt.month ++ ('-' :: (pad2 dt.day ++ rest)))))
      = some ({ p with y := dt.year, mo := dt.month, dd := dt.day }, rest) := by
  obtain ⟨hy1, hy2, hm1, hm2, hd1, hd2, _⟩ := hv
  have hd31 : dt.day ≤ 31 := le_trans hd2 (daysInMonth_le_31 _ _)
  simp [fmtBare, runFmt, pY_pad4 dt.year (by omega),
    pMon_pad2 dt.month hm1 hm2, pDay_pad2 dt.day hd1 hd31]

/-- The time-of-day suffix of the full formats. -/
def fmtTimeSfx : List FmtTok :=
  [FmtTok.lit 'T', FmtTok.H, FmtTok.lit ':', FmtTok.M, FmtTok.lit ':', FmtTok.S]

theorem fmtFull_eq : fmtFull = fmtBare ++ fmtTimeSfx := rfl

/-- Running the time suffix over its canonical rendering. -/
theorem runFmt_timeSfx (dt : PyDateTime) (hv : ValidDT dt) (p : Parts)
    (rest : List Char) :
    runFmt fmtTimeSfx p
        ('T' :: (pad2 dt.hour ++ (':' :: (pad2 dt.minute ++ (':' :: (pad2 dt.second ++ rest))))))
      = some ({ p with hh := dt.hour, mi := dt.minute, ss := dt.second }, rest) := by
  obtain ⟨_, _, _, _, _, _, hh, hmi, hs, _⟩ := hv
  simp [fmtTimeSfx, runFmt, pHr_pad2 dt.hour hh, pMinute_pad2 dt.minute hmi,
    pSec_pad2 dt.second hs]

theorem strftime_bare_shape (dt : PyDateTime) (rest : List Char) :
    strftime dt fmtBare ++ rest
      = pad4 dt.year ++ ('-' :: (pad2 dt.month ++ ('-' :: (pad2 dt.day ++ rest)))) := by
  simp [strftime, fmtBare, fmtOut]

theorem strftime_full_shape (dt : PyDateTime) (rest : List Char) :
    strftime dt fmtFull ++ rest
      = pad4 dt.year ++ ('-' :: (pad2 dt.month ++ ('-' :: (pad2 dt.day ++
        ('T' :: (pad2 dt.hour ++ (':' :: (pad2 dt.minute ++
          (':' :: (pad2 dt.second ++ rest)))))))))) := by
  simp [strftime, fmtFull, fmtBare, fmtTimeSfx, fmtOut]

theorem strftime_fullF_shape (dt : PyDateTime) (rest : List Char) :
    strftime dt fmtFullF ++ rest
      = strftime dt fmtFull ++ ('.' :: (pad6 dt.micro ++ rest)) := by
  simp [strftime, fmtFullF, fmtOut]

theorem strftime_dmy_shape (dt : PyDateTime) (rest : List Char) :
    strftime dt fmtDMY ++ rest
      = pad2 dt.day ++ ('/' :: (pad2 dt.month ++ ('/' :: (pad4 dt.year ++ rest)))) := by
  simp [strftime, fmtDMY, fmtOut]

theorem strftime_mdy_shape (dt : PyDateTime) (rest : List Char) :
    strftime dt fmtMDY ++ rest
      = pad2 dt.month ++ ('/' :: (pad2 dt.day ++ ('/' :: (pad4 dt.year ++ rest)))) := by
  simp [strftime, fmtMDY, fmtOut]

theorem strftime_append_lit (dt : PyDateTime) (toks : List FmtTok) (c : Char) :
    strftime dt (toks ++ [FmtTok.lit c]) = strftime dt toks ++ [c] := by
  simp [strftime, fmtOut]

/-- `replace("+00:00", "")` leaves a string without `'+'` unchanged. -/
theorem replacePlus_no_plus : ∀ s : List Char, '+' ∉ s → replacePlus s = s := by
  intro s
  induction s with
  | nil => intro _; rfl
  | cons c rest ih =>
    intro h
    have hc : c ≠ '+' := fun e => h (by simp [e])
    have h2 : '+' ∉ rest := fun hm => h (List.mem_cons_of_mem _ hm)
    rw [replacePlus.eq_def]
    split
    · rename_i heq
      injection heq with h1 _
      exact absurd h1 hc
    · rename_i heq
      injection heq with e1 e2
      subst e1
      subst e2
      rw [ih h2]
    · rename_i heq
      cases heq

/-- `rstrip("Z")` leaves a string without `'Z'` unchanged. -/
theorem rstripZ_not_mem (s : List Char) (h : 'Z' ∉ s) : rstripZ s = s := by
  unfold rstripZ
  have hd : s.reverse.dropWhile (· = 'Z') = s.reverse := by
    cases hr : s.reverse with
    | nil => rfl
    | cons c t =>
      have hc : c ∈ s := by
        rw [← List.mem_reverse, hr]
        simp
      have : ¬(c = 'Z') := fun e => h (e ▸ hc)
      simp [List.dropWhile_cons, this]
  rw [hd, List.reverse_reverse]

theorem rstripZ_append_Z (s : List Char) : rstripZ (s ++ ['Z']) = rstripZ s := by
  simp [rstripZ, List.dropWhile_cons]

/-- No pad character is a `'+'` or a `'Z'`. -/
theorem strftime_no_plus (dt : PyDateTime) (toks : List FmtTok)
    (h : FmtTok.lit '+' ∉ toks) : '+' ∉ strftime dt toks := by
  intro hm
  obtain ⟨t, ht, hc⟩ := List.mem_flatMap.mp hm
  cases t with
  | lit ch =>
    simp [fmtOut] at hc
    subst hc
    exact h ht
  | Y =>
    simp [fmtOut, pad4] at hc
    rcases hc with hc | hc | hc | hc <;>
      exact ne_dc_of_toNat (Or.inl (by decide)) _ hc
  | m =>
    simp [fmtOut, pad2] at hc
    rcases hc with hc | hc <;>
      exact ne_dc_of_toNat (Or.inl (by decide)) _ hc
  | d =>
    simp [fmtOut, pad2] at hc
    rcases hc with hc | hc <;>
      exact ne_dc_of_toNat (Or.inl (by decide)) _ hc
  | H =>
    simp [fmtOut, pad2] at hc
    rcases hc with hc | hc <;>
      exact ne_dc_of_toNat (Or.inl (by decide)) _ hc
  | M =>
    simp [fmtOut, pad2] at hc
    rcases hc with hc | hc <;>
      exact ne_dc_of_toNat (Or.inl (by decide)) _ hc
  | S =>
    simp [fmtOut, pad2] at hc
    rcases hc with hc | hc <;>
      exact ne_dc_of_toNat (Or.inl (by decide)) _ hc
  | f =>
    simp [fmtOut, pad6] at hc
    rcases hc with hc | hc | hc | hc | hc | hc <;>
      exact ne_dc_of_toNat (Or.inl (by decide)) _ hc

theorem strftime_no_Z (dt : PyDateTime) (toks : List FmtTok)
    (h : FmtTok.lit 'Z' ∉ toks) : 'Z' ∉ strftime dt toks := by
  intro hm
  obtain ⟨t, ht, hc⟩ := List.mem_flatMap.mp hm
  cases t with
  | lit ch =>
    simp [fmtOut] at hc
    subst hc
    exact h ht
  | Y =>
    simp [fmtOut, pad4] at hc
    rcases hc with hc | hc | hc | hc <;>
      exact ne_dc_of_toNat (Or.inr (by decide)) _ hc
  | m =>
    simp [fmtOut, pad2] at hc
    rcases hc with hc | hc <;>
      exact ne_dc_of_toNat (Or.inr (by decide)) _ hc
  | d =>
    simp [fmtOut, pad2] at hc
    rcases hc with hc | hc <;>
      exact ne_dc_of_toNat (Or.inr (by decide)) _ hc
  | H =>
    simp [fmtOut, pad2] at hc
    rcases hc with hc | hc <;>
      exact ne_dc_of_toNat (Or.inr (by decide)) _ hc
  | M =>
    simp [fmtOut, pad2] at hc
    rcases hc with hc | hc <;>
      exact ne_dc_of_toNat (Or.inr (by decide)) _ hc
  | S =>
    simp [fmtOut, pad2] at hc
    rcases hc with hc | hc <;>
      exact ne_dc_of_toNat (Or.inr (by decide)) _ hc
  | f =>
    simp [fmtOut, pad6] at hc
    rcases hc with hc | hc | hc | hc | hc | hc <;>
      exact ne_dc_of_toNat (Or.inr (by decide)) _ hc

/-- Cleaning is the identity on the canonical rendering of a `'+'`-free,
`'Z'`-free format. -/
theorem cleaned_id (dt : PyDateTime) (toks : List FmtTok)
    (hp : FmtTok.lit '+' ∉ toks) (hz : FmtTok.lit 'Z' ∉ toks) :
    rstripZ (replacePlus (strftime dt toks)) = strftime dt toks := by
  rw [replacePlus_no_plus _ (strftime_no_plus dt toks hp),
    rstripZ_not_mem _ (strftime_no_Z dt toks hz)]

/-- Cleaning the canonical rendering of a format with a trailing `Z`
yields the rendering without the `Z`. -/
theorem cleaned_Z (dt : PyDateTime) (toks : List FmtTok)
    (hp : FmtTok.lit '+' ∉ toks) (hz : FmtTok.lit 'Z' ∉ toks) :
    rstripZ (replacePlus (strftime dt (toks ++ [FmtTok.lit 'Z'])))
      = strftime dt toks := by
  rw [strftime_append_lit]
  have hnp : '+' ∉ strftime dt toks ++ ['Z'] := by
    intro hm
    rcases List.mem_append.mp hm with hm | hm
    · exact strftime_no_plus dt toks hp hm
    · simp at hm
  rw [replacePlus_no_plus _ hnp, rstripZ_append_Z,
    rstripZ_not_mem _ (strftime_no_Z dt toks hz)]

theorem mkDT_some (p : Parts) (h1 : 1 ≤ p.y) (h2 : p.y ≤ 9999)
    (h3 : 1 ≤ p.mo) (h4 : p.mo ≤ 12) (h5 : 1 ≤ p.dd)
    (h6 : p.dd ≤ daysInMonth p.y p.mo) (h7 : p.hh ≤ 23) (h8 : p.mi ≤ 59)
    (h9 : p.ss ≤ 59) (h10 : p.ff ≤ 999999) :
    mkDT p = some ⟨p.y, p.mo, p.dd, p.hh, p.mi, p.ss, p.ff⟩ := by
  rw [mkDT, if_pos ⟨h1, h2, h3, h4, h5, h6, h7, h8, h9, h10⟩]

/-- The full timestamp format over its canonical rendering with a trailing
remainder. -/
theorem runFmt_full_canonical (dt : PyDateTime) (hv : ValidDT dt)
    (rest : List Char) :
    runFmt fmtFull {}
        (pad4 dt.year ++ ('-' :: (pad2 dt.month ++ ('-' :: (pad2 dt.day ++
          ('T' :: (pad2 dt.hour ++ (':' :: (pad2 dt.minute ++
            (':' :: (pad2 dt.second ++ rest)))))))))))
      = some (⟨dt.year, dt.month, dt.day, dt.hour, dt.minute, dt.second, 0⟩,
          rest) := by
  rw [fmtFull_eq, runFmt_append, runFmt_bare dt hv]
  simp only [Option.some_bind]
  exact runFmt_timeSfx dt hv _ rest

/-- `%Y-%m-%dT%H:%M:%S` parses its own canonical rendering. -/
theorem tryFmt_full_on_full (dt : PyDateTime) (hv : ValidDT dt) :
    tryFmt fmtFull (strftime dt fmtFull)
      = some ⟨dt.year, dt.month, dt.day, dt.hour, dt.minute, dt.second, 0⟩ := by
  obtain ⟨hy1, hy2, hm1, hm2, hd1, hd2, hh, hmi, hs, hu⟩ := hv
  have hshape := strftime_full_shape dt []
  rw [List.append_nil] at hshape
  rw [tryFmt, hshape,
    runFmt_full_canonical dt ⟨hy1, hy2, hm1, hm2, hd1, hd2, hh, hmi, hs, hu⟩ []]
  refine mkDT_some ⟨dt.year, dt.month, dt.day, dt.hour, dt.minute, dt.second, 0⟩
    ?_ hy2 hm1 hm2 hd1 hd2 hh hmi hs ?_
  · show 1 ≤ dt.year
    omega
  · show (0 : Nat) ≤ 999999
    norm_num

/-- `%Y-%m-%dT%H:%M:%S` rejects the fractional rendering: the fraction
remains unconsumed. -/
theorem tryFmt_full_on_fullF (dt : PyDateTime) (hv : ValidDT dt) :
    tryFmt fmtFull (strftime dt fmtFullF) = none := by
  have hshape := strftime_fullF_shape dt []
  rw [List.append_nil, List.append_nil] at hshape
  rw [tryFmt, hshape, strftime_full_shape dt ('.' :: pad6 dt.micro),
    runFmt_full_canonical dt hv ('.' :: pad6 dt.micro)]

/-- `%Y-%m-%dT%H:%M:%S.%f` parses its own canonical rendering. -/
theorem tryFmt_fullF_on_fullF (dt : PyDateTime) (hv : ValidDT dt) :
    tryFmt fmtFullF (strftime dt fmtFullF)
      = some ⟨dt.year, dt.month, dt.day, dt.hour, dt.minute, dt.second,
          dt.micro⟩ := by
  obtain ⟨hy1, hy2, hm1, hm2, hd1, hd2, hh, hmi, hs, hu⟩ := hv
  have hshape := strftime_fullF_shape dt []
  rw [List.append_nil, List.append_nil] at hshape
  rw [tryFmt, hshape, strftime_full_shape dt ('.' :: pad6 dt.micro), fmtFullF,
    runFmt_append,
    runFmt_full_canonical dt ⟨hy1, hy2, hm1, hm2, hd1, hd2, hh, hmi, hs, hu⟩
      ('.' :: pad6 dt.micro)]
  simp only [Option.some_bind]
  simp only [runFmt, if_pos rfl, pFrac_pad6 dt.micro hu]
  refine mkDT_some
    ⟨dt.year, dt.month, dt.day, dt.hour, dt.minute, dt.second, dt.micro⟩
    ?_ hy2 hm1 hm2 hd1 hd2 hh hmi hs hu
  show 1 ≤ dt.year
  omega

/-- The full formats reject the bare-date rendering: the `T` literal finds
an exhausted input. -/
theorem runFmt_full_on_bare (dt : PyDateTime) (hv : ValidDT dt) :
    runFmt fmtFull {} (strftime dt fmtBare) = none := by
  have hshape := strftime_bare_shape dt []
  rw [List.append_nil] at hshape
  rw [hshape, fmtFull_eq, runFmt_append, runFmt_bare dt hv]
  simp [runFmt, fmtTimeSfx]

theorem tryFmt_full_on_bare (dt : PyDateTime) (hv : ValidDT dt) :
    tryFmt fmtFull (strftime dt fmtBare) = none := by
  rw [tryFmt, runFmt_full_on_bare dt hv]

theorem tryFmt_fullF_on_bare (dt : PyDateTime) (hv : ValidDT dt) :
    tryFmt fmtFullF (strftime dt fmtBare) = none := by
  rw [tryFmt, fmtFullF, runFmt_append, runFmt_full_on_bare dt hv]
  rfl

/-- `%Y-%m-%d` parses its own canonical rendering (time defaults to 0). -/
theorem tryFmt_bare_on_bare (dt : PyDateTime) (hv : ValidDT dt) :
    tryFmt fmtBare (strftime dt fmtBare)
      = some ⟨dt.year, dt.month, dt.day, 0, 0, 0, 0⟩ := by
  obtain ⟨hy1, hy2, hm1, hm2, hd1, hd2, hh, hmi, hs, hu⟩ := hv
  have hshape := strftime_bare_shape dt []
  rw [List.append_nil] at hshape
  rw [tryFmt, hshape,
    runFmt_bare dt ⟨hy1, hy2, hm1, hm2, hd1, hd2, hh, hmi, hs, hu⟩ {} []]
  refine mkDT_some ⟨dt.year, dt.month, dt.day, 0, 0, 0, 0⟩
    ?_ hy2 hm1 hm2 hd1 hd2 ?_ ?_ ?_ ?_
  · show 1 ≤ dt.year
    omega
  all_goals norm_num

/-- A slash-format rendering starts with two digits and a slash, which
`%Y` rejects, so every `%Y`-headed format fails on it. -/
theorem runFmt_Yhead_on_twoDigitSlash (ts : List FmtTok) (p : Parts)
    (x : Nat) (hx : x ≤ 99) (rest : List Char) :
    runFmt (FmtTok.Y :: ts) p (pad2 x ++ ('/' :: rest)) = none := by
  have hpy : pY (pad2 x ++ ('/' :: rest)) = none := by
    show pY (dc (x / 10) :: dc (x % 10) :: '/' :: rest) = none
    exact pY_slash _ _ (by omega) (by omega) rest
  simp [runFmt, hpy]

theorem tryFmt_full_on_slash (x : Nat) (hx : x ≤ 99) (rest : List Char) :
    tryFmt fmtFull (pad2 x ++ ('/' :: rest)) = none := by
  rw [tryFmt, show fmtFull = FmtTok.Y :: fmtFull.tail from rfl,
    runFmt_Yhead_on_twoDigitSlash _ _ x hx rest]

theorem tryFmt_fullF_on_slash (x : Nat) (hx : x ≤ 99) (rest : List Char) :
    tryFmt fmtFullF (pad2 x ++ ('/' :: rest)) = none := by
  rw [tryFmt, show fmtFullF = FmtTok.Y :: fmtFullF.tail from rfl,
    runFmt_Yhead_on_twoDigitSlash _ _ x hx rest]

theorem tryFmt_bare_on_slash (x : Nat) (hx : x ≤ 99) (rest : List Char) :
    tryFmt fmtBare (pad2 x ++ ('/' :: rest)) = none := by
  rw [tryFmt, show fmtBare = FmtTok.Y :: fmtBare.tail from rfl,
    runFmt_Yhead_on_twoDigitSlash _ _ x hx rest]

/-- `%d/%m/%Y` parses its own canonical rendering. -/
theorem tryFmt_dmy_on_dmy (dt : PyDateTime) (hv : ValidDT dt) :
    tryFmt fmtDMY (strftime dt fmtDMY)
      = some ⟨dt.year, dt.month, dt.day, 0, 0, 0, 0⟩ := by
  obtain ⟨hy1, hy2, hm1, hm2, hd1, hd2, hh, hmi, hs, hu⟩ := hv
  have hd31 : dt.day ≤ 31 := le_trans hd2 (daysInMonth_le_31 _ _)
  have hshape := strftime_dmy_shape dt []
  rw [List.append_nil] at hshape
  rw [tryFmt, hshape]
  simp only [fmtDMY, runFmt, pDay_pad2 dt.day hd1 hd31,
    pMon_pad2 dt.month hm1 hm2, pY_pad4 dt.year (by omega),
    if_pos rfl]
  refine mkDT_some ⟨dt.year, dt.month, dt.day, 0, 0, 0, 0⟩
    ?_ hy2 hm1 hm2 hd1 hd2 ?_ ?_ ?_ ?_
  · show 1 ≤ dt.year
    omega
  all_goals norm_num

/-- `%d/%m/%Y` on the month-first rendering with `day ≤ 12`: both
two-digit fields parse, swapped, and the calendar check passes. -/
theorem tryFmt_dmy_on_mdy_small (dt : PyDateTime) (hv : ValidDT dt)
    (hsmall : dt.day ≤ 12) :
    tryFmt fmtDMY (strftime dt fmtMDY)
      = some ⟨dt.year, dt.day, dt.month, 0, 0, 0, 0⟩ := by
  obtain ⟨hy1, hy2, hm1, hm2, hd1, hd2, hh, hmi, hs, hu⟩ := hv
  have hshape := strftime_mdy_shape dt []
  rw [List.append_nil] at hshape
  rw [tryFmt, hshape]
  simp only [fmtDMY, runFmt, pDay_pad2 dt.month hm1 (by omega),
    pMon_pad2 dt.day hd1 hsmall, pY_pad4 dt.year (by omega), if_pos rfl]
  refine mkDT_some ⟨dt.year, dt.day, dt.month, 0, 0, 0, 0⟩
    ?_ hy2 hd1 hsmall hm1 ?_ ?_ ?_ ?_ ?_
  · show 1 ≤ dt.year
    omega
  · show dt.month ≤ daysInMonth dt.year dt.day
    exact le_trans (le_trans hm2 (by norm_num)) (daysInMonth_ge_28 _ _)
  all_goals norm_num

/-- `%d/%m/%Y` on the month-first rendering with `day ≥ 13`: the month
field falls back to one digit and the following slash literal fails. -/
theorem tryFmt_dmy_on_mdy_big (dt : PyDateTime) (hv : ValidDT dt)
    (hbig : 13 ≤ dt.day) :
    tryFmt fmtDMY (strftime dt fmtMDY) = none := by
  obtain ⟨hy1, hy2, hm1, hm2, hd1, hd2, hh, hmi, hs, hu⟩ := hv
  have hd31 : dt.day ≤ 31 := le_trans hd2 (daysInMonth_le_31 _ _)
  have hshape := strftime_mdy_shape dt []
  rw [List.append_nil] at hshape
  have hne : dc (dt.day % 10) ≠ '/' :=
    fun e => ne_dc_of_toNat (Or.inl (by decide)) (dt.day % 10) e.symm
  rw [tryFmt, hshape]
  simp only [fmtDMY, runFmt, pDay_pad2 dt.month hm1 (by omega),
    pMon_pad2_big dt.day hbig hd31, if_pos rfl, if_neg hne]
  simp

/-- `%m/%d/%Y` parses its own canonical rendering. -/
theorem tryFmt_mdy_on_mdy (dt : PyDateTime) (hv : ValidDT dt) :
    tryFmt fmtMDY (strftime dt fmtMDY)
      = some ⟨dt.year, dt.month, dt.day, 0, 0, 0, 0⟩ := by
  obtain ⟨hy1, hy2, hm1, hm2, hd1, hd2, hh, hmi, hs, hu⟩ := hv
  have hd31 : dt.day ≤ 31 := le_trans hd2 (daysInMonth_le_31 _ _)
  have hshape := strftime_mdy_shape dt []
  rw [List.append_nil] at hshape
  rw [tryFmt, hshape]
  simp only [fmtMDY, runFmt, pMon_pad2 dt.month hm1 hm2,
    pDay_pad2 dt.day hd1 hd31, pY_pad4 dt.year (by omega), if_pos rfl]
  refine mkDT_some ⟨dt.year, dt.month, dt.day, 0, 0, 0, 0⟩
    ?_ hy2 hm1 hm2 hd1 hd2 ?_ ?_ ?_ ?_
  · show 1 ≤ dt.year
    omega
  all_goals norm_num

theorem dateFormats_stripped :
    dateFormats.map rstripZToks
      = [fmtFull, fmtFullF, fmtFull, fmtFullF, fmtBare, fmtDMY, fmtMDY] := by
  rfl

theorem parseDateStr_eq (cs : List Char) :
    parseDateStr cs
      = List.findSome? (fun f => tryFmt f (rstripZ (replacePlus cs)))
          [fmtFull, fmtFullF, fmtFull, fmtFullF, fmtBare, fmtDMY, fmtMDY] := by
  rw [parseDateStr, dateFormats_stripped]

/-- All time-of-day components are zero (midnight, no fraction). -/
def timeZero (dt : PyDateTime) : Prop :=
  dt.hour = 0 ∧ dt.minute = 0 ∧ dt.second = 0 ∧ dt.micro = 0

/-- C6 counterexample: the date 2024-02-01 rendered in the month-first
slash format is `02/01/2024`, which `parse_date` re-parses with the
day-first format (tried earlier in the list) as 2024-01-02, so
`parseDate(format(d)) ≠ d` for the month-first format. -/
theorem parse_roundtrip_counterexample :
    parseDateStr (strftime ⟨2024, 2, 1, 0, 0, 0, 0⟩ fmtMDY)
      = some ⟨2024, 1, 2, 0, 0, 0, 0⟩ ∧
    some (⟨2024, 1, 2, 0, 0, 0, 0⟩ : PyDateTime)
      ≠ some (⟨2024, 2, 1, 0, 0, 0, 0⟩ : PyDateTime) := by
  refine ⟨rfl, ?_⟩
  decide

/-- C6 amended: for every valid date value representable in the format
(no component is dropped by rendering), parsing the canonical rendering
yields the value back for six of the seven accepted format strings — the
four timestamp variants (fractions and the `Z` marker round-trip), the
bare date, and the day-first slash format.  The month-first slash format
instead re-parses through the day-first format whenever `day ≤ 12`,
yielding the day/month-swapped date (equal to the original only when
`day = month`); for `day > 12` the day-first format fails and the
month-first round trip succeeds. -/
theorem parse_roundtrip_amended (dt : PyDateTime) (hv : ValidDT dt) :
    (dt.micro = 0 → parseDateStr (strftime dt fmtFull) = some dt) ∧
    parseDateStr (strftime dt fmtFullF) = some dt ∧
    (dt.micro = 0 →
      parseDateStr (strftime dt (fmtFull ++ [FmtTok.lit 'Z'])) = some dt) ∧
    parseDateStr (strftime dt (fmtFullF ++ [FmtTok.lit 'Z'])) = some dt ∧
    (timeZero dt → parseDateStr (strftime dt fmtBare) = some dt) ∧
    (timeZero dt → parseDateStr (strftime dt fmtDMY) = some dt) ∧
    (timeZero dt → 12 < dt.day →
      parseDateStr (strftime dt fmtMDY) = some dt) ∧
    (timeZero dt → dt.day ≤ 12 →
      parseDateStr (strftime dt fmtMDY)
        = some ⟨dt.year, dt.day, dt.month, 0, 0, 0, 0⟩) := by
  have hvc := hv
  obtain ⟨hy1, hy2, hm1, hm2, hd1, hd2, hh, hmi, hs, hu⟩ := hvc
  have cFull := cleaned_id dt fmtFull (by decide) (by decide)
  have cFullF := cleaned_id dt fmtFullF (by decide) (by decide)
  have cFullZ := cleaned_Z dt fmtFull (by decide) (by decide)
  have cFullFZ := cleaned_Z dt fmtFullF (by decide) (by decide)
  have cBare := cleaned_id dt fmtBare (by decide) (by decide)
  have cDmy := cleaned_id dt fmtDMY (by decide) (by decide)
  have cMdy := cleaned_id dt fmtMDY (by decide) (by decide)
  have hFonF := tryFmt_full_on_full dt hv
  have hFonFF := tryFmt_full_on_fullF dt hv
  have hFFonFF := tryFmt_fullF_on_fullF dt hv
  have hFonB := tryFmt_full_on_bare dt hv
  have hFFonB := tryFmt_fullF_on_bare dt hv
  have hBonB := tryFmt_bare_on_bare dt hv
  have hDonD := tryFmt_dmy_on_dmy dt hv
  have hMonM := tryFmt_mdy_on_mdy dt hv
  have hd31 : dt.day ≤ 31 := le_trans hd2 (daysInMonth_le_31 _ _)
  have hdmyShape := strftime_dmy_shape dt []
  rw [List.append_nil] at hdmyShape
  have hmdyShape := strftime_mdy_shape dt []
  rw [List.append_nil] at hmdyShape
  have hFonD : tryFmt fmtFull (strftime dt fmtDMY) = none := by
    rw [hdmyShape]
    exact tryFmt_full_on_slash dt.day (by omega) _
  have hFFonD : tryFmt fmtFullF (strftime dt fmtDMY) = none := by
    rw [hdmyShape]
    exact tryFmt_fullF_on_slash dt.day (by omega) _
  have hBonD : tryFmt fmtBare (strftime dt fmtDMY) = none := by
    rw [hdmyShape]
    exact tryFmt_bare_on_slash dt.day (by omega) _
  have hFonM : tryFmt fmtFull (strftime dt fmtMDY) = none := by
    rw [hmdyShape]
    exact tryFmt_full_on_slash dt.month (by omega) _
  have hFFonM : tryFmt fmtFullF (strftime dt fmtMDY) = none := by
    rw [hmdyShape]
    exact tryFmt_fullF_on_slash dt.month (by omega) _
  have hBonM : tryFmt fmtBare (strftime dt fmtMDY) = none := by
    rw [hmdyShape]
    exact tryFmt_bare_on_slash dt.month (by omega) _
  refine ⟨?_, ?_, ?_, ?_, ?_, ?_, ?_, ?_⟩
  · intro h0
    rw [parseDateStr_eq, cFull]
    simp only [List.findSome?, hFonF]
    obtain ⟨Y, MO, D, H, MI, S, U⟩ := dt
    change U = 0 at h0
    subst h0
    rfl
  · rw [parseDateStr_eq, cFullF]
    simp only [List.findSome?, hFonFF, hFFonFF]
  · intro h0
    rw [parseDateStr_eq, cFullZ]
    simp only [List.findSome?, hFonF]
    obtain ⟨Y, MO, D, H, MI, S, U⟩ := dt
    change U = 0 at h0
    subst h0
    rfl
  · rw [parseDateStr_eq, cFullFZ]
    simp only [List.findSome?, hFonFF, hFFonFF]
  · intro ht
    rw [parseDateStr_eq, cBare]
    simp only [List.findSome?, hFonB, hFFonB, hBonB]
    obtain ⟨Y, MO, D, H, MI, S, U⟩ := dt
    obtain ⟨t1, t2, t3, t4⟩ := ht
    change H = 0 at t1
    change MI = 0 at t2
    change S = 0 at t3
    change U = 0 at t4
    subst t1; subst t2; subst t3; subst t4
    rfl
  · intro ht
    rw [parseDateStr_eq, cDmy]
    simp only [List.findSome?, hFonD, hFFonD, hBonD, hDonD]
    obtain ⟨Y, MO, D, H, MI, S, U⟩ := dt
    obtain ⟨t1, t2, t3, t4⟩ := ht
    change H = 0 at t1
    change MI = 0 at t2
    change S = 0 at t3
    change U = 0 at t4
    subst t1; subst t2; subst t3; subst t4
    rfl
  · intro ht hbig
    have hDonM := tryFmt_dmy_on_mdy_big dt hv (by omega)
    rw [parseDateStr_eq, cMdy]
    simp only [List.findSome?, hFonM, hFFonM, hBonM, hDonM, hMonM]
    obtain ⟨Y, MO, D, H, MI, S, U⟩ := dt
    obtain ⟨t1, t2, t3, t4⟩ := ht
    change H = 0 at t1
    change MI = 0 at t2
    change S = 0 at t3
    change U = 0 at t4
    subst t1; subst t2; subst t3; subst t4
    rfl
  · intro ht hsmall
    have hDonM := tryFmt_dmy_on_mdy_small dt hv hsmall
    rw [parseDateStr_eq, cMdy]
    simp only [List.findSome?, hFonM, hFFonM, hBonM, hDonM]

/-- Witness for `parse_roundtrip_amended`: a timestamp with fraction
round-trips through the fractional format, and 2024-02-14 (day 14 > 12)
round-trips through the month-first slash format. -/
theorem parse_roundtrip_amended_witness :
    parseDateStr (strftime ⟨2024, 2, 14, 10, 30, 5, 123456⟩ fmtFullF)
      = some ⟨2024, 2, 14, 10, 30, 5, 123456⟩ ∧
    parseDateStr (strftime ⟨2024, 2, 14, 0, 0, 0, 0⟩ fmtMDY)
      = some ⟨2024, 2, 14, 0, 0, 0, 0⟩ := by
  constructor
  · exact (parse_roundtrip_amended ⟨2024, 2, 14, 10, 30, 5, 123456⟩
      (by constructor <;> norm_num [daysInMonth, isLeap])).2.1
  · exact (parse_roundtrip_amended ⟨2024, 2, 14, 0, 0, 0, 0⟩
      (by constructor <;> norm_num [daysInMonth, isLeap])).2.2.2.2.2.2.1
      (by constructor <;> norm_num) (by norm_num)

-- ==========================================================================
-- Record processing (lines 251-320) and grouping (lines 349-367)
-- ==========================================================================

/-- The classification state of lines 284-298. -/
structure DueFlags where
  isOverdue : Bool
  isDueSoon : Bool
  isOnTrack : Bool
  daysOverdue : Int
deriving DecidableEq

/-- The overdue / due-soon / on-track decision (lines 289-298), taking
`daysUntil = (est_date - today).days` when an ETD parsed, `none`
otherwise.  All flags start false and `days_overdue` starts 0. -/
def classifyDays : Option Int → DueFlags
  | none => ⟨false, false, false, 0⟩
  | some d =>
    if d < 0 then ⟨true, false, false, |d|⟩
    else if d ≤ DUE_SOON_DAYS then ⟨false, true, false, 0⟩
    else ⟨false, false, true, 0⟩

/-- Value of a decimal digit string. -/
def digitsVal (ds : List Char) : Nat :=
  ds.foldl (fun a c => a * 10 + (c.toNat - 48)) 0

/-- Model of `float(s)` on plain decimal literals (optional sign, integer
part, optional fractional part).  Exotic accepted spellings (exponents,
`inf`, `nan`, underscores, surrounding whitespace) are outside the model;
they do not occur in the quantity fields the claims exercise. -/
def parseFloatLit (s : String) : Option ℚ :=
  let cs := s.toList
  let signed : Bool × List Char :=
    match cs with
    | '-' :: r => (true, r)
    | '+' :: r => (false, r)
    | r => (false, r)
  let intPart := signed.2.takeWhile isDigitC
  let rest2 := signed.2.drop intPart.length
  let mag : Option ℚ :=
    match rest2 with
    | [] => if intPart.isEmpty then none else some (digitsVal intPart : ℚ)
    | '.' :: fr =>
      let fracPart := fr.takeWhile isDigitC
      if !(fr.drop fracPart.length).isEmpty then none
      else if intPart.isEmpty && fracPart.isEmpty then none
      else some ((digitsVal intPart : ℚ)
        + (digitsVal fracPart : ℚ) / (10 : ℚ) ^ fracPart.length)
    | _ => none
  mag.map (fun q => if signed.1 then -q else q)

/-- Model of `float(x)` on JSON-shaped values: numbers pass through, bools
coerce to 1/0, strings are parsed, everything else raises
(`TypeError`, caught by the quantity loop). -/
def pyFloat : Json → Option ℚ
  | Json.num q => some q
  | Json.bool b => some (if b then 1 else 0)
  | Json.str s => parseFloatLit s
  | _ => none

/-- `int(q)` — truncation toward zero. -/
def pyInt (q : ℚ) : Int := Int.tdiv q.num (q.den : Int)

/-- The quantity chain of line 277:
`item.get("Qty") or item.get("qty") or item.get("UomQtyOrdered") or
item.get("uomQtyOrdered") or 0`. -/
def qtyChain (item : List (String × Json)) : Json :=
  pyOr (dictGet item "Qty")
    (pyOr (dictGet item "qty")
      (pyOr (dictGet item "UomQtyOrdered")
        (pyOr (dictGet item "uomQtyOrdered") (Json.num 0))))

/-- The quantity a line item contributes: its chained value coerced by
`float`, non-coercible values contributing zero (lines 278-281). -/
def lineContribution : Json → ℚ
  | Json.obj kvs => (pyFloat (qtyChain kvs)).getD 0
  | _ => 0

/-- `line_items = gf("LineItems") or []`, then kept only if a list
(lines 274-276). -/
def lineItemsOf (kvs : List (String × Json)) : List Json :=
  match pyOr (gf kvs "LineItems") (Json.arr []) with
  | Json.arr xs => xs
  | _ => []

/-- The quantity accumulation loop (lines 275-281); iterating a non-dict
line item raises an uncaught `AttributeError`. -/
def qtyFold : List Json → ℚ → Except String ℚ
  | [], acc => Except.ok acc
  | item :: rest, acc =>
    match item with
    | Json.obj kvs => qtyFold rest (acc + (pyFloat (qtyChain kvs)).getD 0)
    | _ => Except.error "AttributeError"

/-- Day number of a civil date (days since 1970-01-01; standard
days-from-civil algorithm), modelling `date` subtraction in whole days. -/
def daysFromCivil (y : Int) (m d : Nat) : Int :=
  let y' := if m ≤ 2 then y - 1 else y
  let era := (if 0 ≤ y' then y' else y' - 399) / 400
  let yoe := y' - era * 400
  let mp := (m + 9) % 12
  let doy := (153 * mp + 2) / 5 + d - 1
  let doe := yoe * 365 + yoe / 4 - yoe / 100 + (doy : Int)
  era * 146097 + doe - 719468

/-- Day number of a datetime's date part (`etd.date()`). -/
def dateNum (dt : PyDateTime) : Int :=
  daysFromCivil (dt.year : Int) dt.month dt.day

/-- `html.escape` with quote enabled. -/
def escapeChar (c : Char) : List Char :=
  if c = '&' then "&amp;".toList
  else if c = '<' then "&lt;".toList
  else if c = '>' then "&gt;".toList
  else if c = '"' then "&quot;".toList
  else if c = '\'' then "&#x27;".toList
  else [c]

def htmlEscape (s : String) : String :=
  String.mk (s.toList.flatMap escapeChar)

/-- `str(x)` on JSON-shaped values.  Container and float renderings are
display-only approximations; no claim depends on them. -/
def pyStr : Json → String
  | Json.str s => s
  | Json.bool true => "True"
  | Json.bool false => "False"
  | Json.null => "None"
  | Json.num q => if q.den = 1 then toString q.num else toString q
  | Json.arr _ => "<list>"
  | Json.obj _ => "<dict>"

def monthAbbrev : Nat → String
  | 1 => "Jan" | 2 => "Feb" | 3 => "Mar" | 4 => "Apr" | 5 => "May"
  | 6 => "Jun" | 7 => "Jul" | 8 => "Aug" | 9 => "Sep" | 10 => "Oct"
  | 11 => "Nov" | 12 => "Dec" | _ => ""

/-- `strftime("%d %b %Y")` for the display strings. -/
def fmtDayMonYear (dt : PyDateTime) : String :=
  String.mk (pad2 dt.day) ++ " " ++ monthAbbrev dt.month ++ " "
    ++ toString dt.year

def CIN7_WEB_URL_BASE : String :=
  "https://go.cin7.com/Cloud/TransactionEntry/TransactionEntry.aspx"

def CIN7_CUSTOMER_APPS_LINK : String := "767392"

/-- The deep link of lines 300-301 (`"#"` when the id is falsy). -/
def cin7UrlOf (oid : Option Json) : String :=
  if optTruthy oid then
    CIN7_WEB_URL_BASE ++ "?idCustomerAppsLink=" ++ CIN7_CUSTOMER_APPS_LINK
      ++ "&OrderId=" ++ pyStr (oid.getD Json.null)
  else "#"

/-- A processed order as appended on lines 304-318. -/
structure ProcessedOrder where
  id : Option Json
  reference : String
  projectName : String
  firstName : String
  stage : String
  createdDate : String
  etd : String
  qtyTotal : Int
  isOverdue : Bool
  isDueSoon : Bool
  isOnTrack : Bool
  daysOverdue : Int
  cin7Url : String

/-- `stage.startswith(KICKPLATE_STAGE_PREFIX)`, modelled via list
prefixes so that the development can evaluate it. -/
def strStartsWith (s pre : String) : Bool :=
  pre.toList.isPrefixOf s.toList

/-- Processing of a single raw record (lines 256-318): skip voids and
non-kickplate stages (`ok none`), build the processed order otherwise;
records or line items of unexpected dynamic type raise. -/
def processOrder (today : Int) : Json → Except String (Option ProcessedOrder)
  | Json.obj kvs =>
    if optTruthy (dictGet kvs "IsVoid") || optTruthy (dictGet kvs "isVoid") then
      Except.ok none
    else
      match pyOr (gf kvs "Stage") (Json.str "") with
      | Json.str stage =>
        if !strStartsWith stage KICKPLATE_STAGE_NS then Except.ok none
        else
          match qtyFold (lineItemsOf kvs) 0 with
          | Except.error e => Except.error e
          | Except.ok qty =>
            let etd := parseDate (gf kvs "EstimatedDeliveryDate")
            let created := parseDate (gf kvs "CreatedDate")
            let flags := classifyDays (etd.map (fun e => dateNum e - today))
            let oid := gf kvs "Id"
            Except.ok (some
              { id := oid
                reference := htmlEscape (pyStr (pyOr (gf kvs "Reference")
                  (Json.str "No Ref")))
                projectName := htmlEscape (pyStr (pyOr (gf kvs "ProjectName")
                  (Json.str "")))
                firstName := htmlEscape (pyStr (pyOr (gf kvs "FirstName")
                  (Json.str "")))
                stage := stage
                createdDate := (created.map fmtDayMonYear).getD ""
                etd := (etd.map fmtDayMonYear).getD ""
                qtyTotal := pyInt qty
                isOverdue := flags.isOverdue
                isDueSoon := flags.isDueSoon
                isOnTrack := flags.isOnTrack
                daysOverdue := flags.daysOverdue
                cin7Url := cin7UrlOf oid })
      | _ => Except.error "AttributeError"
  | _ => Except.error "AttributeError"

/-- The processing loop over all fetched records. -/
def fetchProcess (today : Int) : List Json → Except String (List ProcessedOrder)
  | [] => Except.ok []
  | r :: rest =>
    match processOrder today r with
    | Except.error e => Except.error e
    | Except.ok o =>
      match fetchProcess today rest with
      | Except.error e => Except.error e
      | Except.ok tail =>
        Except.ok (match o with
          | some p => p :: tail
          | none => tail)

/-- The grouping of `api_jobs` (lines 354-358): only the four known stages
have buckets, each order landing in the bucket matching its stage. -/
def groupedOf (orders : List ProcessedOrder) (s : String) : List ProcessedOrder :=
  if s ∈ KICKPLATE_STAGES then orders.filter (fun o => o.stage = s) else []

/-- `totalCount` of the `api_jobs` response (line 366). -/
def totalCountOf (orders : List ProcessedOrder) : Nat := orders.length

/-- Inverting a successful, non-skipped record processing: the record is a
non-void dict whose stage string passes the prefix filter, the quantity
loop succeeded, and the processed fields are the ones lines 304-318
compute. -/
theorem processOrder_some_inv (today : Int) (r : Json) (p : ProcessedOrder)
    (h : processOrder today r = Except.ok (some p)) :
    ∃ kvs stage qv,
      r = Json.obj kvs ∧
      optTruthy (dictGet kvs "IsVoid") = false ∧
      optTruthy (dictGet kvs "isVoid") = false ∧
      pyOr (gf kvs "Stage") (Json.str "") = Json.str stage ∧
      strStartsWith stage KICKPLATE_STAGE_NS = true ∧
      qtyFold (lineItemsOf kvs) 0 = Except.ok qv ∧
      p.stage = stage ∧
      p.qtyTotal = pyInt qv ∧
      DueFlags.mk p.isOverdue p.isDueSoon p.isOnTrack p.daysOverdue
        = classifyDays ((parseDate (gf kvs "EstimatedDeliveryDate")).map
            (fun e => dateNum e - today)) := by
  cases r with
  | obj kvs =>
    simp only [processOrder] at h
    by_cases hvoid : (optTruthy (dictGet kvs "IsVoid")
        || optTruthy (dictGet kvs "isVoid")) = true
    · rw [if_pos hvoid] at h
      simp at h
    · rw [if_neg hvoid] at h
      have hv2 := Bool.or_eq_false_iff.mp (Bool.not_eq_true _ |>.mp hvoid)
      cases hst : pyOr (gf kvs "Stage") (Json.str "") with
      | str stage =>
        rw [hst] at h
        by_cases hpre : strStartsWith stage KICKPLATE_STAGE_NS = true
        · simp only [hpre, Bool.not_true, Bool.false_eq_true, if_false] at h
          cases hq : qtyFold (lineItemsOf kvs) 0 with
          | error e =>
            rw [hq] at h
            simp at h
          | ok qv =>
            rw [hq] at h
            simp only [Except.ok.injEq, Option.some.injEq] at h
            subst h
            exact ⟨kvs, stage, qv, rfl, hv2.1, hv2.2, hst, hpre, hq,
              rfl, rfl, rfl⟩
        · have hpre' : strStartsWith stage KICKPLATE_STAGE_NS = false :=
            Bool.not_eq_true _ |>.mp hpre
          simp [hpre'] at h
      | null => rw [hst] at h; simp at h
      | bool b => rw [hst] at h; simp at h
      | num q => rw [hst] at h; simp at h
      | arr xs => rw [hst] at h; simp at h
      | obj o => rw [hst] at h; simp at h
  | null => simp [processOrder] at h
  | bool b => simp [processOrder] at h
  | num q => simp [processOrder] at h
  | str s => simp [processOrder] at h
  | arr xs => simp [processOrder] at h

/-- C2: the due-date classification is a total, mutually exclusive
partition — for every daysUntil value exactly one of overdue, due-soon,
on-track, no-date holds, with the stated thresholds and `daysOverdue`
equal to `|daysUntil|` when overdue — and every processed order carries
exactly the flags computed from its parsed ETD minus today. -/
theorem classification_spec :
    (∀ x : Option Int,
      ([(classifyDays x).isOverdue, (classifyDays x).isDueSoon,
          (classifyDays x).isOnTrack].count true
        + (if x = none then 1 else 0)) = 1 ∧
      (∀ d, x = some d →
        ((classifyDays x).isOverdue = true ↔ d < 0) ∧
        ((classifyDays x).isDueSoon = true ↔ 0 ≤ d ∧ d ≤ DUE_SOON_DAYS) ∧
        ((classifyDays x).isOnTrack = true ↔ DUE_SOON_DAYS < d) ∧
        (d < 0 → (classifyDays x).daysOverdue = |d|)) ∧
      (x = none → classifyDays x = ⟨false, false, false, 0⟩)) ∧
    (∀ today kvs p,
      processOrder today (Json.obj kvs) = Except.ok (some p) →
      DueFlags.mk p.isOverdue p.isDueSoon p.isOnTrack p.daysOverdue
        = classifyDays ((parseDate (gf kvs "EstimatedDeliveryDate")).map
            (fun e => dateNum e - today))) := by
  constructor
  · intro x
    refine ⟨?_, ?_, ?_⟩
    · cases x with
      | none => simp [classifyDays]
      | some d =>
        by_cases h1 : d < 0
        · simp [classifyDays, h1]
        · by_cases h2 : d ≤ DUE_SOON_DAYS <;>
            simp [classifyDays, h1, h2]
    · intro d hd
      subst hd
      have hD : DUE_SOON_DAYS = 7 := rfl
      by_cases h1 : d < 0
      · refine ⟨?_, ?_, ?_, ?_⟩ <;>
          simp [classifyDays, h1] <;> omega
      · by_cases h2 : d ≤ DUE_SOON_DAYS
        · refine ⟨?_, ?_, ?_, ?_⟩ <;>
            simp [classifyDays, h1, h2] <;> omega
        · refine ⟨?_, ?_, ?_, ?_⟩ <;>
            simp [classifyDays, h1, h2] <;> omega
    · intro hx
      subst hx
      rfl
  · intro today kvs p h
    obtain ⟨kvs', stage, qv, heq, _, _, _, _, _, _, _, hflags⟩ :=
      processOrder_some_inv today (Json.obj kvs) p h
    have : kvs' = kvs := by
      injection heq.symm
    subst this
    exact hflags

/-- Witness for `classification_spec` at the spec's sample inputs. -/
theorem classification_spec_witness :
    (classifyDays (some (-3))).isOverdue = true ∧
    (classifyDays (some (-3))).daysOverdue = 3 ∧
    (classifyDays (some 7)).isDueSoon = true ∧
    (classifyDays (some 8)).isOnTrack = true ∧
    classifyDays none = ⟨false, false, false, 0⟩ := by
  have h := classification_spec
  refine ⟨((h.1 (some (-3))).2.1 (-3) rfl).1.mpr (by norm_num),
    ?_,
    ((h.1 (some 7)).2.1 7 rfl).2.1.mpr (by norm_num [DUE_SOON_DAYS]),
    ((h.1 (some 8)).2.1 8 rfl).2.2.1.mpr (by norm_num [DUE_SOON_DAYS]),
    (h.1 none).2.2 rfl⟩
  have := ((h.1 (some (-3))).2.1 (-3) rfl).2.2.2 (by norm_num)
  simpa using this

/-- The quantity loop computes the sum of the per-line contributions. -/
theorem qtyFold_ok : ∀ (items : List Json) (acc q : ℚ),
    qtyFold items acc = Except.ok q →
    q = acc + (items.map lineContribution).sum := by
  intro items
  induction items with
  | nil =>
    intro acc q h
    simp only [qtyFold, Except.ok.injEq] at h
    simp [h]
  | cons item rest ih =>
    intro acc q h
    cases item with
    | obj kvs =>
      simp only [qtyFold] at h
      have := ih _ _ h
      simp only [List.map_cons, List.sum_cons, lineContribution, this]
      ring
    | null => simp [qtyFold] at h
    | bool b => simp [qtyFold] at h
    | num n => simp [qtyFold] at h
    | str s => simp [qtyFold] at h
    | arr xs => simp [qtyFold] at h

/-- Projection used to observe the quantity total of a processed record. -/
def qtyTotalOfResult : Except String (Option ProcessedOrder) → Option Int
  | Except.ok (some p) => some p.qtyTotal
  | _ => none

/-- The C7 counterexample record: the first listed key `Qty` is present
with value 0 and `qty` holds -5. -/
def qtyCounterRec : Json :=
  Json.obj [("Stage", Json.str "Kickplate - New"),
    ("LineItems", Json.arr
      [Json.obj [("Qty", Json.num 0), ("qty", Json.num (-5))]])]

/-- C7 counterexample: the claim predicts quantityTotal 0 (the first
present key `Qty` holds 0) and non-negativity; the code's truthiness
chain skips the falsy `Qty` value, uses `qty = -5`, and produces the
negative total -5. -/
theorem qty_total_counterexample :
    qtyTotalOfResult (processOrder 0 qtyCounterRec) = some (-5) ∧
    some (-5 : Int) ≠ some (0 : Int) ∧
    ¬(0 : Int) ≤ -5 := by
  have e1 : (0 : ℚ) + (-5) = (-5 : ℚ) := by norm_num
  refine ⟨?_, by decide, by norm_num⟩
  calc qtyTotalOfResult (processOrder 0 qtyCounterRec)
      = some (pyInt ((0 : ℚ) + (-5))) := rfl
    _ = some (pyInt (-5 : ℚ)) := by rw [e1]
    _ = some (-5) := by decide

/-- C7 amended: for every record successfully processed, quantityTotal is
the sum of per-line contributions truncated toward zero (possibly
negative), where each line contributes the first truthy value among
`Qty`, `qty`, `UomQtyOrdered`, `uomQtyOrdered` (falsy values are skipped,
the chain defaulting to 0) coerced by `float`, and a non-coercible
chained value contributes zero without aborting the sum. -/
theorem qty_total_amended (today : Int) (kvs : List (String × Json))
    (p : ProcessedOrder)
    (h : processOrder today (Json.obj kvs) = Except.ok (some p)) :
    p.qtyTotal = pyInt (((lineItemsOf kvs).map lineContribution).sum) ∧
    (∀ item v, dictGet item "Qty" = some v → pyTruthy v = true →
      qtyChain item = v) ∧
    (∀ item, optTruthy (dictGet item "Qty") = false →
      qtyChain item
        = pyOr (dictGet item "qty")
            (pyOr (dictGet item "UomQtyOrdered")
              (pyOr (dictGet item "uomQtyOrdered") (Json.num 0)))) ∧
    (∀ kvs2, pyFloat (qtyChain kvs2) = none →
      lineContribution (Json.obj kvs2) = 0) := by
  refine ⟨?_, ?_, ?_, ?_⟩
  · obtain ⟨kvs', stage, qv, heq, _, _, _, _, hq, _, hqt, _⟩ :=
      processOrder_some_inv today (Json.obj kvs) p h
    have hk : kvs' = kvs := by injection heq.symm
    subst hk
    have := qtyFold_ok _ _ _ hq
    rw [hqt, this]
    norm_num
  · intro item v hv ht
    simp [qtyChain, hv, pyOr, ht]
  · intro item hfalse
    cases hd : dictGet item "Qty" with
    | none => simp [qtyChain, pyOr, hd]
    | some v =>
      rw [hd] at hfalse
      simp only [optTruthy] at hfalse
      simp [qtyChain, pyOr, hd, hfalse]
  · intro kvs2 hnone
    simp [lineContribution, hnone]

/-- The C7 witness record. -/
def qtyWitnessKvs : List (String × Json) :=
  [("Stage", Json.str "Kickplate - New"),
   ("LineItems", Json.arr [Json.obj [("Qty", Json.num 3)]])]

/-- The processed order the pipeline produces for `qtyWitnessKvs` (the
quantity total is written as the unreduced truncation the loop builds). -/
def qtyWitnessP : ProcessedOrder :=
  { id := none, reference := "No Ref", projectName := "", firstName := ""
    stage := "Kickplate - New", createdDate := "", etd := ""
    qtyTotal := pyInt ((0 : ℚ) + 3)
    isOverdue := false, isDueSoon := false, isOnTrack := false
    daysOverdue := 0, cin7Url := "#" }

/-- Witness for `qty_total_amended` at a concrete record. -/
theorem qty_total_amended_witness :
    qtyWitnessP.qtyTotal
      = pyInt (((lineItemsOf qtyWitnessKvs).map lineContribution).sum) :=
  (qty_total_amended 0 qtyWitnessKvs qtyWitnessP rfl).1

/-- Every processed order comes from a raw record of the batch whose
processing produced it. -/
theorem fetchProcess_mem_inv (today : Int) :
    ∀ (rawList : List Json) (orders : List ProcessedOrder),
      fetchProcess today rawList = Except.ok orders →
      ∀ o ∈ orders, ∃ r ∈ rawList,
        processOrder today r = Except.ok (some o) := by
  intro rawList
  induction rawList with
  | nil =>
    intro orders h o ho
    simp only [fetchProcess, Except.ok.injEq] at h
    subst h
    cases ho
  | cons r rest ih =>
    intro orders h o ho
    simp only [fetchProcess] at h
    cases hpo : processOrder today r with
    | error e =>
      rw [hpo] at h
      simp at h
    | ok oOpt =>
      rw [hpo] at h
      cases hrest : fetchProcess today rest with
      | error e =>
        rw [hrest] at h
        simp at h
      | ok tail =>
        rw [hrest] at h
        cases oOpt with
        | none =>
          simp only [Except.ok.injEq] at h
          subst h
          obtain ⟨r', hr', hpr⟩ := ih tail hrest o ho
          exact ⟨r', List.mem_cons_of_mem _ hr', hpr⟩
        | some p =>
          simp only [Except.ok.injEq] at h
          subst h
          rcases List.mem_cons.mp ho with hop | ho'
          · subst hop
            exact ⟨r, List.mem_cons_self _ _, hpo⟩
          · obtain ⟨r', hr', hpr⟩ := ih tail hrest o ho'
            exact ⟨r', List.mem_cons_of_mem _ hr', hpr⟩

/-- C8: every order appearing in a stage bucket of the grouped board
output sits under one of the four known kickplate stages and carries
exactly that stage; every processed order originates from a non-void raw
record whose stage passed the kickplate prefix filter; and a processed
order whose stage is not one of the four enumerated stages appears in no
bucket (silent narrowing at the grouping step). -/
theorem grouped_board_invariant (today : Int) (rawList : List Json)
    (orders : List ProcessedOrder)
    (h : fetchProcess today rawList = Except.ok orders) :
    (∀ s o, o ∈ groupedOf orders s →
      s ∈ KICKPLATE_STAGES ∧ o.stage = s ∧ o ∈ orders) ∧
    (∀ o ∈ orders, ∃ r ∈ rawList,
      processOrder today r = Except.ok (some o) ∧
      ∃ kvs, r = Json.obj kvs ∧
        optTruthy (dictGet kvs "IsVoid") = false ∧
        optTruthy (dictGet kvs "isVoid") = false ∧
        strStartsWith o.stage KICKPLATE_STAGE_NS = true) ∧
    (∀ o ∈ orders, o.stage ∉ KICKPLATE_STAGES →
      ∀ s, o ∉ groupedOf orders s) := by
  refine ⟨?_, ?_, ?_⟩
  · intro s o hmem
    by_cases hs : s ∈ KICKPLATE_STAGES
    · rw [groupedOf, if_pos hs] at hmem
      obtain ⟨ho, hst⟩ := List.mem_filter.mp hmem
      exact ⟨hs, by simpa using hst, ho⟩
    · rw [groupedOf, if_neg hs] at hmem
      cases hmem
  · intro o ho
    obtain ⟨r, hr, hpr⟩ := fetchProcess_mem_inv today rawList orders h o ho
    obtain ⟨kvs, stage, qv, heq, hv1, hv2, _, hpre, _, hstage, _, _⟩ :=
      processOrder_some_inv today r o hpr
    exact ⟨r, hr, hpr, kvs, heq, hv1, hv2, by rw [hstage]; exact hpre⟩
  · intro o ho hnot s hmem
    by_cases hs : s ∈ KICKPLATE_STAGES
    · rw [groupedOf, if_pos hs] at hmem
      obtain ⟨_, hst⟩ := List.mem_filter.mp hmem
      have : o.stage = s := by simpa using hst
      exact hnot (this ▸ hs)
    · rw [groupedOf, if_neg hs] at hmem
      cases hmem

/-- The raw batch used by the grouping witnesses: a recognized-stage
order, an unrecognized kickplate sub-stage order, and a voided order. -/
def c8raw : List Json :=
  [Json.obj [("Stage", Json.str "Kickplate - New"), ("Id", Json.num 1)],
   Json.obj [("Stage", Json.str "Kickplate - Archived"), ("Id", Json.num 2)],
   Json.obj [("IsVoid", Json.bool true), ("Stage", Json.str "Kickplate - New"),
     ("Id", Json.num 3)]]

def c8p1 : ProcessedOrder :=
  { id := some (Json.num 1), reference := "No Ref", projectName := ""
    firstName := "", stage := "Kickplate - New", createdDate := "", etd := ""
    qtyTotal := 0, isOverdue := false, isDueSoon := false, isOnTrack := false
    daysOverdue := 0
    cin7Url := "https://go.cin7.com/Cloud/TransactionEntry/TransactionEntry.aspx?idCustomerAppsLink=767392&OrderId=1" }

def c8p2 : ProcessedOrder :=
  { id := some (Json.num 2), reference := "No Ref", projectName := ""
    firstName := "", stage := "Kickplate - Archived", createdDate := ""
    etd := "", qtyTotal := 0, isOverdue := false, isDueSoon := false
    isOnTrack := false, daysOverdue := 0
    cin7Url := "https://go.cin7.com/Cloud/TransactionEntry/TransactionEntry.aspx?idCustomerAppsLink=767392&OrderId=2" }

/-- Witness for `grouped_board_invariant`: in the concrete batch the
recognized order sits in its bucket, and the unrecognized sub-stage
order appears in no bucket even though it was processed. -/
theorem grouped_board_invariant_witness :
    ("Kickplate - New" ∈ KICKPLATE_STAGES ∧
      c8p1.stage = "Kickplate - New" ∧ c8p1 ∈ [c8p1, c8p2]) ∧
    c8p2 ∉ groupedOf [c8p1, c8p2] "Kickplate - New" := by
  have h := grouped_board_invariant 0 c8raw [c8p1, c8p2] rfl
  refine ⟨h.1 "Kickplate - New" c8p1 ?_, h.2.2 c8p2 ?_ ?_ "Kickplate - New"⟩
  · have hg : groupedOf [c8p1, c8p2] "Kickplate - New" = [c8p1] := rfl
    rw [hg]
    exact List.mem_singleton_self _
  · exact List.mem_cons_of_mem _ (List.mem_cons_self _ _)
  · show c8p2.stage ∉ KICKPLATE_STAGES
    decide

/-- Splitting a stage-membership count at the head of a stage list. -/
theorem filter_mem_cons_split (a : String) (L : List String) (ha : a ∉ L) :
    ∀ orders : List ProcessedOrder,
      (orders.filter (fun o => decide (o.stage ∈ a :: L))).length
        = (orders.filter (fun o => o.stage = a)).length
          + (orders.filter (fun o => decide (o.stage ∈ L))).length := by
  intro orders
  induction orders with
  | nil => rfl
  | cons o rest ih =>
    by_cases h1 : o.stage = a
    · have h2 : o.stage ∉ L := h1 ▸ ha
      have e1 : decide (o.stage ∈ a :: L) = true := by simp [h1]
      have e2 : decide (o.stage = a) = true := by simp [h1]
      have e3 : ¬decide (o.stage ∈ L) = true := by simp [h2]
      simp only [List.filter_cons]
      rw [if_pos e1, if_pos e2, if_neg e3]
      simp only [List.length_cons]
      omega
    · have e2 : ¬decide (o.stage = a) = true := by simp [h1]
      by_cases h2 : o.stage ∈ L
      · have e1 : decide (o.stage ∈ a :: L) = true := by simp [h2]
        have e3 : decide (o.stage ∈ L) = true := by simp [h2]
        simp only [List.filter_cons]
        rw [if_pos e1, if_neg e2, if_pos e3]
        simp only [List.length_cons]
        omega
      · have e1 : ¬decide (o.stage ∈ a :: L) = true := by simp [h1, h2]
        have e3 : ¬decide (o.stage ∈ L) = true := by simp [h2]
        simp only [List.filter_cons]
        rw [if_neg e1, if_neg e2, if_neg e3]
        omega

/-- The bucket sizes over a duplicate-free stage list sum to the count of
orders whose stage is in the list. -/
theorem sum_groups (orders : List ProcessedOrder) :
    ∀ L : List String, L.Nodup →
      (L.map (fun s => (orders.filter (fun o => o.stage = s)).length)).sum
        = (orders.filter (fun o => decide (o.stage ∈ L))).length := by
  intro L
  induction L with
  | nil => intro _; simp
  | cons a L ih =>
    intro hnd
    obtain ⟨ha, hnd'⟩ := List.nodup_cons.mp hnd
    simp only [List.map_cons, List.sum_cons, ih hnd']
    rw [filter_mem_cons_split a L ha orders]

/-- A Boolean predicate partitions a list's length. -/
theorem length_filter_partition (P : ProcessedOrder → Bool) :
    ∀ orders : List ProcessedOrder,
      (orders.filter P).length + (orders.filter (fun o => !P o)).length
        = orders.length := by
  intro orders
  induction orders with
  | nil => rfl
  | cons o rest ih =>
    by_cases hp : P o = true <;>
      · simp only [List.filter_cons, hp]
        simp [hp, ← ih]
        omega

/-- C10: totalCount counts every processed order, so it equals the sum of
the four bucket sizes plus the number of processed orders whose stage is
outside the four known stages; hence it is at least the sum of the bucket
sizes, and strictly greater whenever an unrecognized kickplate sub-stage
record was processed. -/
theorem total_count_spec (today : Int) (rawList : List Json)
    (orders : List ProcessedOrder)
    (h : fetchProcess today rawList = Except.ok orders) :
    totalCountOf orders
      = (KICKPLATE_STAGES.map (fun s => (groupedOf orders s).length)).sum
        + (orders.filter (fun o => decide (o.stage ∉ KICKPLATE_STAGES))).length ∧
    (KICKPLATE_STAGES.map (fun s => (groupedOf orders s).length)).sum
      ≤ totalCountOf orders ∧
    ((∃ o ∈ orders, o.stage ∉ KICKPLATE_STAGES) →
      (KICKPLATE_STAGES.map (fun s => (groupedOf orders s).length)).sum
        < totalCountOf orders) := by
  have hmapeq : KICKPLATE_STAGES.map (fun s => (groupedOf orders s).length)
      = KICKPLATE_STAGES.map
          (fun s => (orders.filter (fun o => o.stage = s)).length) := by
    apply List.map_congr_left
    intro s hs
    rw [groupedOf, if_pos hs]
  have hnodup : KICKPLATE_STAGES.Nodup := by decide
  have hsum := sum_groups orders KICKPLATE_STAGES hnodup
  have hnotmem : (fun o : ProcessedOrder =>
        decide (o.stage ∉ KICKPLATE_STAGES))
      = (fun o => !decide (o.stage ∈ KICKPLATE_STAGES)) := by
    funext o
    simp [decide_not]
  have hpart := length_filter_partition
    (fun o => decide (o.stage ∈ KICKPLATE_STAGES)) orders
  have hkey : totalCountOf orders
      = (KICKPLATE_STAGES.map (fun s => (groupedOf orders s).length)).sum
        + (orders.filter
            (fun o => decide (o.stage ∉ KICKPLATE_STAGES))).length := by
    rw [hmapeq, hsum, hnotmem, totalCountOf]
    omega
  refine ⟨hkey, by omega, ?_⟩
  rintro ⟨o, ho, hnot⟩
  have hmem : o ∈ orders.filter
      (fun o => decide (o.stage ∉ KICKPLATE_STAGES)) :=
    List.mem_filter.mpr ⟨ho, by simpa using hnot⟩
  have hpos := List.length_pos_of_mem hmem
  omega

/-- Witness for `total_count_spec` on the concrete batch: the count
identity holds and is strict because of the unrecognized sub-stage
order. -/
theorem total_count_spec_witness :
    totalCountOf [c8p1, c8p2]
      = (KICKPLATE_STAGES.map
          (fun s => (groupedOf [c8p1, c8p2] s).length)).sum
        + ([c8p1, c8p2].filter
            (fun o => decide (o.stage ∉ KICKPLATE_STAGES))).length ∧
    (KICKPLATE_STAGES.map (fun s => (groupedOf [c8p1, c8p2] s).length)).sum
      < totalCountOf [c8p1, c8p2] := by
  have h := total_count_spec 0 c8raw [c8p1, c8p2] rfl
  refine ⟨h.1, h.2.2 ⟨c8p2, ?_, by decide⟩⟩
  exact List.mem_cons_of_mem _ (List.mem_cons_self _ _)

end Workshop
